import Mathlib

/-!
# Kalmia: page operations of the documentation service

A shallow embedding of `services/docs_pages.go` (the page operations of
`DocService`), of the handlers of `handlers/docs.go` (the mutation endpoints
and `GetRsPress`) and of `config.ParseConfig`, with models of
`utils.ReplaceInFile` and of the build scheduler, which are not among the
sources.

The relational store behind `service.DB` is modelled as two tables, the page
rows and the `page_editors` join rows.  An unsigned field of a page is kept by
the store as a signed 64-bit column: a value of 2^63 or more is written as a
negative number, and a row with such a column no longer reads back.  Every
store call of the source takes one flag of `Faults` that says whether that
call fails with a store error (other than "record not found"); a failing call
changes nothing.  A transaction works on a copy of the store that replaces the
store when `Commit` succeeds.

`GetRootParentID`, `AddBuildTrigger`, `service.GetRsPress` and the file system
are collaborators outside these sources: their answers are parameters, and the
calls made to `AddBuildTrigger` are recorded in the state.  Identifiers and
orders are Go `uint` values, taken as natural numbers (no arithmetic is done
on them except handing out the next primary key); the 64-bit width shows
where the store writes them to a signed column.
-/

namespace Kalmia

/-- Go's `error`: `none` is `nil`, `some msg` is `fmt.Errorf(msg)`. -/
abbrev GoError := Option String

/-- The fields of `models.User` the page operations read. -/
structure User where
  ID : Nat
  Username : String
deriving DecidableEq, Repr

/-- The fields of `models.Page` the page operations read or write.  `Editors`
is the many-to-many association held in memory; a stored row carries none. -/
structure Page where
  ID : Nat
  Title : String
  Slug : String
  Content : String
  DocumentationID : Nat
  PageGroupID : Option Nat
  Order : Option Nat
  AuthorID : Nat
  LastEditorID : Option Nat
  Editors : List User
deriving DecidableEq, Repr

/-- The store: the rows of table `pages` and the rows of the join table
`page_editors` (page id, the user it links). -/
structure DB where
  pages : List Page
  page_editors : List (Nat × User)
deriving DecidableEq, Repr

/-- The errors a store call hands back: `gorm.ErrRecordNotFound` or any other. -/
inductive DBError where
  | ErrRecordNotFound
  | ErrOther
deriving DecidableEq, Repr

/-- Which store calls and collaborators fail during one service call. -/
structure Faults where
  /-- `service.DB.Begin()` fails: every call on the transaction then fails. -/
  begin : Bool
  /-- the `First` of the operation itself fails with a store error -/
  first : Bool
  /-- `Save` fails -/
  save : Bool
  /-- `Association("Editors").Clear()` fails -/
  clear : Bool
  /-- `Delete` fails -/
  delete : Bool
  /-- `Commit` fails -/
  commit : Bool
  /-- `Create` fails -/
  create : Bool
  /-- the `First` inside `GetDocumentationIDOfPage` fails with a store error -/
  docIdFirst : Bool
  /-- `AddBuildTrigger` returns an error -/
  trigger : Bool
deriving DecidableEq, Repr

/-- What a service call runs against: the faults of this call and the answer of
`service.GetRootParentID` (its error result is dropped by every caller). -/
structure Env where
  faults : Faults
  GetRootParentID : Nat → Nat

/-- The observable state: the store and the `AddBuildTrigger` calls made so
far, each with its documentation id and its boolean flag. -/
structure World where
  db : DB
  triggers : List (Nat × Bool)
deriving DecidableEq, Repr

/-- No store call and no collaborator fails. -/
def Faults.none : Faults :=
  ⟨false, false, false, false, false, false, false, false, false⟩

/-- The stored row of an in-memory page: the association is kept in the join table. -/
def Page.row (p : Page) : Page :=
  { p with Editors := [] }

/-- Go's `uint` is 64 bits wide and the store keeps an unsigned column as a
signed 64-bit integer: the number the column holds for an unsigned value.  A
value of 2^63 or more is written as a negative number. -/
def int64OfUint (n : Nat) : Int :=
  if n < 9223372036854775808 then (n : Int) else (n : Int) - 18446744073709551616

/-- An unsigned value that the store gives back as it was written: one below
2^63. -/
def fitsInt64 (n : Nat) : Bool :=
  decide (n < 9223372036854775808)

/-- A nullable unsigned value that the store gives back as it was written. -/
def fitsInt64Opt : Option Nat → Bool
  | none => true
  | some n => fitsInt64 n

/-- A stored row reads back into a `models.Page`: none of its unsigned columns
holds a negative number (a negative number does not scan into a `uint`). -/
def Page.readable (p : Page) : Bool :=
  fitsInt64 p.ID && fitsInt64 p.DocumentationID && fitsInt64Opt p.PageGroupID &&
    fitsInt64Opt p.Order && fitsInt64 p.AuthorID && fitsInt64Opt p.LastEditorID

/-- `db.First(&page, id)`: the first row with primary key `id`; a row that does
not read back is a store error. -/
def DB.First (db : DB) (fault : Bool) (id : Nat) : Except DBError Page :=
  if fault then .error .ErrOther
  else
    match db.pages.find? (fun p => decide (p.ID = id)) with
    | some p => if p.readable then .ok p.row else .error .ErrOther
    | none => .error .ErrRecordNotFound

/-- The users linked to page `id` in `page_editors`, in insertion order. -/
def DB.Editors (db : DB) (id : Nat) : List User :=
  (db.page_editors.filter (fun l => decide (l.1 = id))).map Prod.snd

/-- `db.Preload("Editors").First(&page, id)`: the row with its editors loaded. -/
def DB.PreloadFirst (db : DB) (fault : Bool) (id : Nat) : Except DBError Page :=
  match db.First fault id with
  | .ok p => .ok { p with Editors := db.Editors id }
  | .error e => .error e

/-- Insert one join row, `ON CONFLICT DO NOTHING` on the key (page id, user id). -/
def insertLink (links : List (Nat × User)) (pid : Nat) (u : User) : List (Nat × User) :=
  if links.any (fun l => decide (l.1 = pid ∧ l.2.ID = u.ID)) then links
  else links ++ [(pid, u)]

/-- Insert the join rows of a page's in-memory editors. -/
def insertLinks (links : List (Nat × User)) (pid : Nat) (us : List User) :
    List (Nat × User) :=
  us.foldl (fun acc u => insertLink acc pid u) links

/-- `db.Save(&page)`: write all fields of the row with the page's primary key
(insert the row when there is none) and upsert the join rows of its editors. -/
def DB.Save (db : DB) (fault : Bool) (page : Page) : Except DBError DB :=
  if fault then .error .ErrOther
  else
    let rows :=
      if db.pages.any (fun p => decide (p.ID = page.ID)) then
        db.pages.map (fun p => if p.ID = page.ID then page.row else p)
      else db.pages ++ [page.row]
    .ok ⟨rows, insertLinks db.page_editors page.ID page.Editors⟩

/-- The id an auto-increment primary key hands out next. -/
def DB.nextID (db : DB) : Nat :=
  (db.pages.map (fun p => p.ID)).foldr max 0 + 1

/-- `db.Create(&page)`: insert a new row (a zero primary key gets the next id, a
primary key already in use is refused) with the join rows of its editors; the
page comes back with its primary key set. -/
def DB.Create (db : DB) (fault : Bool) (page : Page) : Except DBError (Page × DB) :=
  if fault then .error .ErrOther
  else
    let page1 := if page.ID = 0 then { page with ID := db.nextID } else page
    if db.pages.any (fun p => decide (p.ID = page1.ID)) then .error .ErrOther
    else
      .ok (page1, ⟨db.pages ++ [page1.row],
        insertLinks db.page_editors page1.ID page1.Editors⟩)

/-- `db.Model(&page).Association("Editors").Clear()`: drop the page's join rows. -/
def DB.ClearEditors (db : DB) (fault : Bool) (page : Page) : Except DBError DB :=
  if fault then .error .ErrOther
  else .ok ⟨db.pages, db.page_editors.filter (fun l => decide (l.1 ≠ page.ID))⟩

/-- Modelled from the spec: `models.Page` is not among the sources, so whether
its rows carry a soft-delete column is not visible; as the specification has it,
`db.Delete(&page)` removes the row with the page's primary key. -/
def DB.Delete (db : DB) (fault : Bool) (page : Page) : Except DBError DB :=
  if fault then .error .ErrOther
  else .ok ⟨db.pages.filter (fun p => decide (p.ID ≠ page.ID)), db.page_editors⟩

/-- `service.AddBuildTrigger(docId, flag)` as the page operations see it (the
function is not among the sources): the call is recorded with its arguments and
its error result is the one the environment dictates. -/
def AddBuildTrigger (env : Env) (w : World) (docId : Nat) (flag : Bool) :
    GoError × World :=
  (if env.faults.trigger then some "failed_to_add_build_trigger" else none,
    { w with triggers := w.triggers ++ [(docId, flag)] })

/-- `DocService.GetPage` (docs_pages.go 26-42). -/
def GetPage (env : Env) (w : World) (id : Nat) : Except String Page :=
  match w.db.PreloadFirst env.faults.first id with
  | .error .ErrRecordNotFound => .error "page_not_found"
  | .error .ErrOther => .error "failed_to_get_page"
  | .ok page => .ok page

/-- `DocService.GetDocumentationIDOfPage` (docs_pages.go 224-234). -/
def GetDocumentationIDOfPage (env : Env) (w : World) (id : Nat) : Except String Nat :=
  match w.db.First env.faults.docIdFirst id with
  | .error .ErrRecordNotFound => .error "page_not_found"
  | .error .ErrOther => .error "failed_to_fetch_page"
  | .ok page => .ok page.DocumentationID

/-- Lines 95-105 of `EditPage`: append the user unless one with the same id is
already among the editors. -/
def addEditor (editors : List User) (user : User) : List User :=
  if editors.any (fun e => decide (e.ID = user.ID)) then editors
  else editors ++ [user]

/-- Lines 79-105 of `EditPage`: the assignments made to the loaded page before
it is saved. -/
def editedPage (page : Page) (user : User) (title slug content : String)
    (order pageGroupId : Option Nat) : Page :=
  let page := { page with Title := title, Slug := slug }
  let page := if content ≠ "" then { page with Content := content } else page
  let page := { page with LastEditorID := some user.ID }
  let page := match order with
    | some o => { page with Order := some o }
    | none => page
  let page := match pageGroupId with
    | some g => { page with PageGroupID := some g }
    | none => page
  { page with Editors := addEditor page.Editors user }

/-- The transaction of `DocService.EditPage` (docs_pages.go 71-114): the store
after `tx.Commit()` on success, the error returned otherwise (the store is then
as before, the transaction being rolled back). -/
def EditPageTx (env : Env) (db : DB) (user : User) (id : Nat)
    (title slug content : String) (order pageGroupId : Option Nat) :
    Except String DB :=
  match db.PreloadFirst (env.faults.begin || env.faults.first) id with
  | .error _ => .error "page_not_found"
  | .ok page =>
    match db.Save env.faults.save
        (editedPage page user title slug content order pageGroupId) with
    | .error _ => .error "failed_to_update_page"
    | .ok tx =>
      if env.faults.commit then .error "failed_to_commit_changes"
      else .ok tx

/-- Lines of the build-trigger step shared verbatim by the four operations
(docs_pages.go 55-67, 122-134, 172-184, 209-221). -/
def triggerBuild (env : Env) (w : World) (docId : Nat) : GoError × World :=
  let parentDocId := env.GetRootParentID docId
  let r :=
    if parentDocId = 0 then AddBuildTrigger env w docId false
    else AddBuildTrigger env w parentDocId false
  match r.1 with
  | some _ => (some "failed_to_update_write_build", r.2)
  | none => (none, r.2)

/-- `DocService.EditPage` (docs_pages.go 70-135). -/
def EditPage (env : Env) (w : World) (user : User) (id : Nat)
    (title slug content : String) (order pageGroupId : Option Nat) :
    GoError × World :=
  match EditPageTx env w.db user id title slug content order pageGroupId with
  | .error e => (some e, w)
  | .ok db1 =>
    let w1 := { w with db := db1 }
    match GetDocumentationIDOfPage env w1 id with
    | .error _ => (some "failed_to_get_documentation_id", w1)
    | .ok docId => triggerBuild env w1 docId

/-- `DocService.CreatePage` (docs_pages.go 44-68).  The page is passed by
pointer and comes back with the primary key `Create` gave it. -/
def CreatePage (env : Env) (w : World) (page : Page) : GoError × World × Page :=
  match w.db.Create env.faults.create page with
  | .error _ => (some "failed_to_create_page", w, page)
  | .ok (page1, db1) =>
    let w1 := { w with db := db1 }
    match GetDocumentationIDOfPage env w1 page1.ID with
    | .error _ => (some "failed_to_get_documentation_id", w1, page1)
    | .ok docId =>
      let r := triggerBuild env w1 docId
      (r.1, r.2, page1)

/-- The transaction of `DocService.DeletePage` (docs_pages.go 140-166): the
store after `tx.Commit()` on success, the error returned otherwise (the store
is then as before, the transaction being rolled back). -/
def DeletePageTx (env : Env) (db : DB) (id : Nat) : Except String DB :=
  if env.faults.begin then .error "failed_to_start_transaction"
  else
    match db.First env.faults.first id with
    | .error .ErrRecordNotFound => .error "page_not_found"
    | .error .ErrOther => .error "failed_to_fetch_page"
    | .ok page =>
      match db.ClearEditors env.faults.clear page with
      | .error _ => .error "failed_to_clear_page_associations"
      | .ok tx1 =>
        match tx1.Delete env.faults.delete page with
        | .error _ => .error "failed_to_delete_page"
        | .ok tx2 =>
          if env.faults.commit then .error "transaction_commit_failed"
          else .ok tx2

/-- `DocService.DeletePage` (docs_pages.go 137-185): the documentation id is
looked up first, its error is looked at only after the commit. -/
def DeletePage (env : Env) (w : World) (id : Nat) : GoError × World :=
  let r := GetDocumentationIDOfPage env w id
  match DeletePageTx env w.db id with
  | .error e => (some e, w)
  | .ok db1 =>
    let w1 := { w with db := db1 }
    match r with
    | .error _ => (some "failed_to_get_documentation_id", w1)
    | .ok docId => triggerBuild env w1 docId

/-- `DocService.ReorderPage` (docs_pages.go 187-222). -/
def ReorderPage (env : Env) (w : World) (id : Nat) (pageGroupID order : Option Nat) :
    GoError × World :=
  match w.db.First env.faults.first id with
  | .error .ErrRecordNotFound => (some "page_not_found", w)
  | .error .ErrOther => (some "failed_to_fetch_page", w)
  | .ok page =>
    let page := { page with PageGroupID := pageGroupID, Order := order }
    match w.db.Save env.faults.save page with
    | .error _ => (some "failed_to_update_page", w)
    | .ok db1 =>
      let w1 := { w with db := db1 }
      match GetDocumentationIDOfPage env w1 id with
      | .error _ => (some "failed_to_get_documentation_id", w1)
      | .ok docId => triggerBuild env w1 docId

/-! ## The site handler `GetRsPress` -/

/-- Split a path at every `/`. -/
def splitSlash : List Char → List (List Char)
  | [] => [[]]
  | c :: cs =>
    match splitSlash cs with
    | [] => [[]]
    | seg :: rest => if c = '/' then [] :: seg :: rest else (c :: seg) :: rest

/-- One component of `filepath.Clean`: the cleaned components so far are kept
last-first. -/
def cleanStep (rooted : Bool) (out : List (List Char)) (seg : List Char) :
    List (List Char) :=
  if seg = [] ∨ seg = ['.'] then out
  else if seg = ['.', '.'] then
    match out with
    | [] => if rooted then [] else [seg]
    | top :: rest => if top = ['.', '.'] then seg :: out else rest
  else seg :: out

/-- Go's `filepath.Clean` on a slash-separated path. -/
def Clean (path : String) : String :=
  if path.data = [] then "."
  else
    let rooted := decide (path.data.head? = some '/')
    let segs := ((splitSlash path.data).foldl (cleanStep rooted) []).reverse
    let body := List.intercalate ['/'] segs
    if rooted then String.mk ('/' :: body)
    else if body = [] then "." else String.mk body

/-- Go's `filepath.Join` of two elements. -/
def Join (a b : String) : String :=
  if a ≠ "" then Clean (String.mk (a.data ++ '/' :: b.data))
  else if b ≠ "" then Clean b
  else ""

/-- Go's `strings.TrimPrefix`. -/
def TrimPrefix (s pre : String) : String :=
  if pre.data.isPrefixOf s.data then String.mk (s.data.drop pre.data.length) else s

/-- What `os.Stat` answers for a path. -/
inductive StatResult where
  | found
  | notExist
  | otherError
deriving DecidableEq, Repr

/-- What the handler writes: a redirect or the file handed to `http.ServeFile`. -/
inductive Response where
  | Redirect (url : String) (code : Nat)
  | ServeFile (path : String)
deriving DecidableEq, Repr

/-- Handler `GetRsPress` (handlers/docs.go 555-572).  `resolve` is
`service.GetRsPress`, giving the build-output directory and the matched base
URL of a request path, and `stat` is `os.Stat` on the file system. -/
def GetRsPress (resolve : String → Except String (String × String))
    (stat : String → StatResult) (urlPath : String) : Response :=
  match resolve urlPath with
  | .error _ => .Redirect "/admin/" 307
  | .ok (docPath, baseURL) =>
    let fullPath := Join docPath (TrimPrefix urlPath baseURL)
    let fullPath :=
      if stat fullPath = .notExist then Join docPath "index.html" else fullPath
    .ServeFile fullPath

/-- The page `EditPage` loads: the stored row with its editors. -/
def loaded (db : DB) (p : Page) (id : Nat) : Page :=
  { p.row with Editors := db.Editors id }

/-! ## The four mutating page operations as one type -/

/-- A call of one of the four mutating page operations, with its arguments. -/
inductive PageOp where
  | create (page : Page)
  | edit (user : User) (id : Nat) (title slug content : String)
      (order pageGroupId : Option Nat)
  | delete (id : Nat)
  | reorder (id : Nat) (pageGroupID order : Option Nat)

/-- Run the call: the error returned and the state left. -/
def PageOp.run (env : Env) (w : World) : PageOp → GoError × World
  | .create page => ((CreatePage env w page).1, (CreatePage env w page).2.1)
  | .edit user id t sl c o g => EditPage env w user id t sl c o g
  | .delete id => DeletePage env w id
  | .reorder id g o => ReorderPage env w id g o

/-- The documentation id of the page the call is about: the one of the page
handed to `CreatePage`, the one stored for the id otherwise. -/
def PageOp.docId (w : World) : PageOp → Option Nat
  | .create page => some page.DocumentationID
  | .edit _ id _ _ _ _ _ | .delete id | .reorder id _ _ =>
    match w.db.First false id with
    | .ok p => some p.DocumentationID
    | .error _ => none

/-- The store the call has committed, when it got as far as committing its
mutation: the result of `Create`, of the transaction of `EditPage` or
`DeletePage`, of the `Save` of `ReorderPage`. -/
def PageOp.committed (env : Env) (w : World) : PageOp → Option DB
  | .create page =>
    match w.db.Create env.faults.create page with
    | .ok (_, db1) => some db1
    | .error _ => none
  | .edit user id t sl c o g =>
    match EditPageTx env w.db user id t sl c o g with
    | .ok db1 => some db1
    | .error _ => none
  | .delete id =>
    match DeletePageTx env w.db id with
    | .ok db1 => some db1
    | .error _ => none
  | .reorder id g o =>
    match w.db.First env.faults.first id with
    | .ok page =>
      match w.db.Save env.faults.save { page with PageGroupID := g, Order := o } with
      | .ok db1 => some db1
      | .error _ => none
    | .error _ => none

/-- The scheduling key in the words of the specification: the resolved root
when it is non-zero, the documentation's own id otherwise. -/
def specSchedulingKey (root self : Nat) : Nat :=
  if root ≠ 0 then root else self

/-- How a call of a page operation ends: either with an error and no trigger
call, or with exactly one trigger call, for the scheduling key of the page's
documentation and with flag `false`, the error being the one of that call. -/
def Outcome (env : Env) (w : World) (d : Option Nat) (r : GoError × World) : Prop :=
  (r.1 ≠ none ∧ r.2.triggers = w.triggers) ∨
  (∃ d0, d = some d0 ∧
    r.1 = (if env.faults.trigger then some "failed_to_update_write_build" else none) ∧
    r.2.triggers =
      w.triggers ++ [(specSchedulingKey (env.GetRootParentID d0) d0, false)])

/-- The documentation-id lookup a call makes for its build trigger, `db1`
being the store the call has committed: `DeletePage` looks the id up before
its transaction, the other operations after their mutation. -/
def PageOp.lookup (env : Env) (w : World) (db1 : DB) : PageOp → Except String Nat
  | .create page =>
    match w.db.Create env.faults.create page with
    | .ok (page1, _) => GetDocumentationIDOfPage env ⟨db1, w.triggers⟩ page1.ID
    | .error _ => GetDocumentationIDOfPage env ⟨db1, w.triggers⟩ page.ID
  | .edit _ id _ _ _ _ _ => GetDocumentationIDOfPage env ⟨db1, w.triggers⟩ id
  | .delete id => GetDocumentationIDOfPage env w id
  | .reorder id _ _ => GetDocumentationIDOfPage env ⟨db1, w.triggers⟩ id

/-- The build-trigger step of a call whose mutation is committed, from the
result of its documentation-id lookup. -/
def afterCommit (env : Env) (w : World) (db1 : DB) (lookup : Except String Nat) :
    GoError × World :=
  match lookup with
  | .error _ => (some "failed_to_get_documentation_id", ⟨db1, w.triggers⟩)
  | .ok d => triggerBuild env ⟨db1, w.triggers⟩ d

/-! ## Containment of a served path -/

/-- A path lies under a directory, in the words of the specification: it is the
directory itself, or it continues the directory after a `/`. -/
def liesUnder (dir path : String) : Bool :=
  path == dir || (dir.data ++ ['/']).isPrefixOf path.data ||
    (dir.data.getLast? == some '/' && dir.data.isPrefixOf path.data)

/-- A component `filepath.Clean` does not drop: neither empty nor `.`. -/
def keptSeg (seg : List Char) : Bool :=
  decide (seg ≠ [] ∧ seg ≠ ['.'])

/-- The components `filepath.Clean` keeps of a path, first to last. -/
def cleanSegs (path : List Char) : List (List Char) :=
  ((splitSlash path).foldl (cleanStep (decide (path.head? = some '/'))) []).reverse

/-! ## The mutation handlers of `handlers/docs.go` -/

/-- An answer written by `SendJSONResponse`: the status code and the
`map[string]string` envelope. -/
structure JSONResponse where
  code : Nat
  body : List (String × String)
deriving DecidableEq, Repr

/-- One item of the `order` list of a bulk reorder request. -/
structure ReorderItem where
  ID : Nat
  Order : Option Nat
  ParentID : Option Nat
  PageGroupID : Option Nat
  IsPageGroup : Bool
deriving DecidableEq, Repr

/-- The fields of the handlers' `Request` structs that reach a service call,
in one record; each handler reads its own.  The further string fields of a
documentation request are handed over unchanged and are left out. -/
structure Body where
  ID : Nat
  Name : String
  Title : String
  Slug : String
  Content : String
  DocumentationID : Nat
  PageGroupID : Option Nat
  ParentID : Option Nat
  Order : Option Nat
  OriginalDocID : Nat
  NewVersion : String
  Items : List ReorderItem
deriving DecidableEq, Repr

/-- What a handler reads of a request: the result of `GetTokenFromHeader(r)`
(`none` when it returns an error) and the result of `ValidateRequest(w, r)`
(`none` when it returns an error, having answered the request itself). -/
structure HTTPRequest where
  token : Option String
  body : Option Body
deriving DecidableEq, Repr

/-- A call of a mutating operation of `DocService`, with the arguments the
handler hands over. -/
inductive ServiceCall where
  | CreateDocumentation (user : User) (name : String)
  | EditDocumentation (user : User) (id : Nat) (name : String)
  | DeleteDocumentation (id : Nat)
  | CreateDocumentationVersion (originalDocID : Nat) (newVersion : String)
  | CreatePage (page : Page)
  | EditPage (user : User) (id : Nat) (title slug content : String)
      (order pageGroupId : Option Nat)
  | DeletePage (id : Nat)
  | CreatePageGroup (user : User) (name : String) (documentationID : Nat)
      (parentID order : Option Nat)
  | EditPageGroup (user : User) (id : Nat) (name : String) (documentationID : Nat)
      (parentID order : Option Nat)
  | DeletePageGroup (id : Nat)
  | BulkReorderPageOrPageGroup (order : List ReorderItem)
deriving DecidableEq, Repr

/-- The collaborators of a handler: `AuthService.GetUserFromToken` (`none` when
it returns an error) and the `DocService` operations, each answering with its
error and, for a create operation, the id it gave the new entity. -/
structure Services where
  GetUserFromToken : String → Option User
  call : ServiceCall → GoError × Nat

/-- What a handler did: the service calls it made and the answer it wrote
(`none` when `ValidateRequest` has answered). -/
structure Handled where
  calls : List ServiceCall
  answer : Option JSONResponse
deriving DecidableEq, Repr

/-- The error envelope of a handler. -/
def errorEnvelope (code : Nat) (message : String) : JSONResponse :=
  ⟨code, [("status", "error"), ("message", message)]⟩

/-- `fmt.Sprint` of an id. -/
def Sprint (id : Nat) : String :=
  toString id

namespace handlers

/-- Handler `CreateDocumentation` (handlers/docs.go 51-140). -/
def CreateDocumentation (svc : Services) (r : HTTPRequest) : Handled :=
  match r.token with
  | none => ⟨[], some (errorEnvelope 401 "invalid_token")⟩
  | some token =>
    match svc.GetUserFromToken token with
    | none => ⟨[], some (errorEnvelope 401 "invalid_token")⟩
    | some user =>
      match r.body with
      | none => ⟨[], none⟩
      | some req =>
        let call := ServiceCall.CreateDocumentation user req.Name
        match svc.call call with
        | (some e, _) => ⟨[call], some (errorEnvelope 500 e)⟩
        | (none, id) =>
          ⟨[call], some ⟨200, [("status", "success"),
            ("message", "documentation_created"), ("id", Sprint id)]⟩⟩

/-- Handler `EditDocumentation` (handlers/docs.go 142-228). -/
def EditDocumentation (svc : Services) (r : HTTPRequest) : Handled :=
  match r.body with
  | none => ⟨[], none⟩
  | some req =>
    match r.token with
    | none => ⟨[], some (errorEnvelope 401 "invalid_request")⟩
    | some token =>
      match svc.GetUserFromToken token with
      | none => ⟨[], some (errorEnvelope 401 "invalid_request")⟩
      | some user =>
        let call := ServiceCall.EditDocumentation user req.ID req.Name
        match svc.call call with
        | (some e, _) => ⟨[call], some (errorEnvelope 500 e)⟩
        | (none, _) =>
          ⟨[call], some ⟨200, [("status", "success"),
            ("message", "documentation_updated"), ("id", Sprint req.ID)]⟩⟩

/-- Handler `DeleteDocumentation` (handlers/docs.go 230-247). -/
def DeleteDocumentation (svc : Services) (r : HTTPRequest) : Handled :=
  match r.body with
  | none => ⟨[], none⟩
  | some req =>
    let call := ServiceCall.DeleteDocumentation req.ID
    match svc.call call with
    | (some e, _) => ⟨[call], some (errorEnvelope 500 e)⟩
    | (none, _) =>
      ⟨[call], some ⟨200, [("status", "success"),
        ("message", "documentation_deleted"), ("id", Sprint req.ID)]⟩⟩

/-- Handler `CreateDocumentationVersion` (handlers/docs.go 249-267). -/
def CreateDocumentationVersion (svc : Services) (r : HTTPRequest) : Handled :=
  match r.body with
  | none => ⟨[], none⟩
  | some req =>
    let call := ServiceCall.CreateDocumentationVersion req.OriginalDocID req.NewVersion
    match svc.call call with
    | (some e, _) => ⟨[call], some (errorEnvelope 500 e)⟩
    | (none, _) =>
      ⟨[call], some ⟨200, [("status", "success"), ("message", "version_created")]⟩⟩

/-- Handler `CreatePage` (handlers/docs.go 298-351). -/
def CreatePage (svc : Services) (r : HTTPRequest) : Handled :=
  match r.body with
  | none => ⟨[], none⟩
  | some req =>
    match r.token with
    | none => ⟨[], some (errorEnvelope 401 "invalid_request")⟩
    | some token =>
      match svc.GetUserFromToken token with
      | none => ⟨[], some (errorEnvelope 401 "invalid_request")⟩
      | some user =>
        let page : Page :=
          { ID := 0, Title := req.Title, Slug := req.Slug, Content := req.Content,
            DocumentationID := req.DocumentationID, PageGroupID := none, Order := none,
            AuthorID := user.ID, LastEditorID := some user.ID, Editors := [user] }
        let page := match req.PageGroupID with
          | some g => { page with PageGroupID := some g }
          | none => page
        let page := match req.Order with
          | some o => { page with Order := some o }
          | none => page
        let call := ServiceCall.CreatePage page
        match svc.call call with
        | (some e, _) => ⟨[call], some (errorEnvelope 500 e)⟩
        | (none, id) =>
          ⟨[call], some ⟨200, [("status", "success"), ("message", "page_created"),
            ("id", Sprint id)]⟩⟩

/-- Handler `EditPage` (handlers/docs.go 353-387). -/
def EditPage (svc : Services) (r : HTTPRequest) : Handled :=
  match r.body with
  | none => ⟨[], none⟩
  | some req =>
    match r.token with
    | none => ⟨[], some (errorEnvelope 401 "invalid_request")⟩
    | some token =>
      match svc.GetUserFromToken token with
      | none => ⟨[], some (errorEnvelope 401 "invalid_request")⟩
      | some user =>
        let call := ServiceCall.EditPage user req.ID req.Title req.Slug req.Content
          req.Order req.PageGroupID
        match svc.call call with
        | (some e, _) => ⟨[call], some (errorEnvelope 500 e)⟩
        | (none, _) =>
          ⟨[call], some ⟨200, [("status", "success"), ("message", "page_updated"),
            ("id", Sprint req.ID)]⟩⟩

/-- Handler `DeletePage` (handlers/docs.go 389-412). -/
def DeletePage (svc : Services) (r : HTTPRequest) : Handled :=
  match r.body with
  | none => ⟨[], none⟩
  | some req =>
    let call := ServiceCall.DeletePage req.ID
    match svc.call call with
    | (some e, _) =>
      if e = "page_not_found" then ⟨[call], some (errorEnvelope 404 "Page not found")⟩
      else ⟨[call], some (errorEnvelope 500 e)⟩
    | (none, _) =>
      ⟨[call], some ⟨200, [("status", "success"), ("message", "page_deleted"),
        ("id", Sprint req.ID)]⟩⟩

/-- Handler `CreatePageGroup` (handlers/docs.go 450-499). -/
def CreatePageGroup (svc : Services) (r : HTTPRequest) : Handled :=
  match r.body with
  | none => ⟨[], none⟩
  | some req =>
    match r.token with
    | none => ⟨[], some (errorEnvelope 401 "invalid_request")⟩
    | some token =>
      match svc.GetUserFromToken token with
      | none => ⟨[], some (errorEnvelope 401 "invalid_request")⟩
      | some user =>
        let call := ServiceCall.CreatePageGroup user req.Name req.DocumentationID
          req.ParentID req.Order
        match svc.call call with
        | (some e, _) => ⟨[call], some (errorEnvelope 500 e)⟩
        | (none, id) =>
          ⟨[call], some ⟨200, [("status", "success"),
            ("message", "page_group_created"), ("id", Sprint id)]⟩⟩

/-- Handler `EditPageGroup` (handlers/docs.go 501-534). -/
def EditPageGroup (svc : Services) (r : HTTPRequest) : Handled :=
  match r.body with
  | none => ⟨[], none⟩
  | some req =>
    match r.token with
    | none => ⟨[], some (errorEnvelope 401 "invalid_request")⟩
    | some token =>
      match svc.GetUserFromToken token with
      | none => ⟨[], some (errorEnvelope 401 "invalid_request")⟩
      | some user =>
        let call := ServiceCall.EditPageGroup user req.ID req.Name req.DocumentationID
          req.ParentID req.Order
        match svc.call call with
        | (some e, _) => ⟨[call], some (errorEnvelope 500 e)⟩
        | (none, _) =>
          ⟨[call], some ⟨200, [("status", "success"),
            ("message", "page_group_updated"), ("id", Sprint req.ID)]⟩⟩

/-- Handler `DeletePageGroup` (handlers/docs.go 536-553). -/
def DeletePageGroup (svc : Services) (r : HTTPRequest) : Handled :=
  match r.body with
  | none => ⟨[], none⟩
  | some req =>
    let call := ServiceCall.DeletePageGroup req.ID
    match svc.call call with
    | (some e, _) => ⟨[call], some (errorEnvelope 500 e)⟩
    | (none, _) =>
      ⟨[call], some ⟨200, [("status", "success"),
        ("message", "page_group_deleted"), ("id", Sprint req.ID)]⟩⟩

/-- Handler `BulkReorderPageOrPageGroup` (handlers/docs.go 574-598). -/
def BulkReorderPageOrPageGroup (svc : Services) (r : HTTPRequest) : Handled :=
  match r.body with
  | none => ⟨[], none⟩
  | some req =>
    let call := ServiceCall.BulkReorderPageOrPageGroup req.Items
    match svc.call call with
    | (some e, _) => ⟨[call], some (errorEnvelope 500 e)⟩
    | (none, _) =>
      ⟨[call], some ⟨200, [("status", "success"),
        ("message", "pages_and_page_groups_reordered")]⟩⟩

end handlers

/-- The mutation endpoints of `handlers/docs.go`. -/
inductive Endpoint where
  | CreateDocumentation
  | EditDocumentation
  | DeleteDocumentation
  | CreateDocumentationVersion
  | CreatePage
  | EditPage
  | DeletePage
  | CreatePageGroup
  | EditPageGroup
  | DeletePageGroup
  | BulkReorderPageOrPageGroup
deriving DecidableEq, Repr

/-- The handler of a mutation endpoint. -/
def Endpoint.handler : Endpoint → Services → HTTPRequest → Handled
  | .CreateDocumentation => handlers.CreateDocumentation
  | .EditDocumentation => handlers.EditDocumentation
  | .DeleteDocumentation => handlers.DeleteDocumentation
  | .CreateDocumentationVersion => handlers.CreateDocumentationVersion
  | .CreatePage => handlers.CreatePage
  | .EditPage => handlers.EditPage
  | .DeletePage => handlers.DeletePage
  | .CreatePageGroup => handlers.CreatePageGroup
  | .EditPageGroup => handlers.EditPageGroup
  | .DeletePageGroup => handlers.DeletePageGroup
  | .BulkReorderPageOrPageGroup => handlers.BulkReorderPageOrPageGroup

/-- The endpoints whose handler reads the bearer token. -/
def Endpoint.readsToken : Endpoint → Bool
  | .CreateDocumentation | .EditDocumentation | .CreatePage | .EditPage
  | .CreatePageGroup | .EditPageGroup => true
  | _ => false

/-- The keys of an envelope. -/
def JSONResponse.keys (r : JSONResponse) : List String :=
  r.body.map Prod.fst


/-! ## `config.ParseConfig` -/

/-- The fields of `config.Config` that `ParseConfig` and `SetupDataPath` read or
write: `MaxFileSize` is an `int64`. -/
structure Config where
  MaxFileSize : Int
  DataPath : String
deriving DecidableEq, Repr

/-- What the configuration file says for these fields: `none` for a key that is
absent (or `null`), the number or string given otherwise. -/
structure ConfigFile where
  maxFileSize : Option Int
  dataPath : Option String
deriving DecidableEq, Repr

/-- `decoder.Decode(ParsedConfig)` into the zero `Config`: an absent key leaves
the zero value, a number outside `int64` is an error. -/
def decodeConfig (file : ConfigFile) : Except String Config :=
  match file.maxFileSize with
  | none => .ok ⟨0, file.dataPath.getD ""⟩
  | some v =>
    if -(2 : Int) ^ 63 ≤ v ∧ v < (2 : Int) ^ 63 then .ok ⟨v, file.dataPath.getD ""⟩
    else .error "json: cannot unmarshal number into Go struct field Config.maxFileSize of type int64"

/-- The file system as `SetupDataPath` sees it: the paths that exist and the
paths `os.Mkdir` fails on. -/
structure Disk where
  paths : List String
  mkdirFails : String → Bool

/-- `os.Mkdir(path, 0755)`. -/
def Disk.Mkdir (disk : Disk) (path : String) : GoError × Disk :=
  if disk.mkdirFails path then (some "mkdir failed", disk)
  else (none, { disk with paths := disk.paths ++ [path] })

/-- `config.SetupDataPath` (config.go 93-113), on the parsed configuration. -/
def SetupDataPath (cfg : Config) (disk : Disk) : GoError × Config × Disk :=
  let cfg := if cfg.DataPath = "" then { cfg with DataPath := "./data" } else cfg
  let r1 :=
    if cfg.DataPath ∉ disk.paths then disk.Mkdir cfg.DataPath else (none, disk)
  match r1.1 with
  | some e => (some e, cfg, r1.2)
  | none =>
    let sub := cfg.DataPath ++ "/rspress_data"
    let r2 := if sub ∉ r1.2.paths then r1.2.Mkdir sub else (none, r1.2)
    match r2.1 with
    | some e => (some e, cfg, r2.2)
    | none => (none, cfg, r2.2)

/-- `config.ParseConfig` (config.go 62-91): `file` is what `os.Open` and the
JSON decoder read at the path (an error when the file cannot be opened or is
no JSON object); a panic is an error result. -/
def ParseConfig (file : Except String ConfigFile) (disk : Disk) :
    Except String (Config × Disk) :=
  match file with
  | .error e => .error e
  | .ok content =>
    match decodeConfig content with
    | .error e => .error e
    | .ok cfg =>
      match SetupDataPath cfg disk with
      | (some e, _, _) => .error e
      | (none, cfg, disk) =>
        let cfg := if cfg.MaxFileSize = 0 then { cfg with MaxFileSize := 10 } else cfg
        .ok (cfg, disk)

/-! ## `utils.ReplaceInFile` -/

/-- Scan for Go's `strings.ReplaceAll` with a non-empty `old`: `skip` characters
of a match just replaced are still to be passed over. -/
def replaceFrom (old new : List Char) : Nat → List Char → List Char
  | _, [] => []
  | skip + 1, _ :: cs => replaceFrom old new skip cs
  | 0, c :: cs =>
    if old.isPrefixOf (c :: cs) then new ++ replaceFrom old new (old.length - 1) cs
    else c :: replaceFrom old new 0 cs

/-- Go's `strings.ReplaceAll` with an empty `old`: `new` after every character. -/
def insertAfterEach (new : List Char) : List Char → List Char
  | [] => []
  | c :: cs => c :: new ++ insertAfterEach new cs

/-- Go's `strings.ReplaceAll(s, old, new)`: every occurrence of `old`, found
from the left and not overlapping an earlier one, is replaced by `new`; an
empty `old` matches before the text and after every character. -/
def ReplaceAll (s old new : List Char) : List Char :=
  if old = [] then new ++ insertAfterEach new s
  else replaceFrom old new 0 s

/-- The files of a disk: the content of every path that is a file. -/
abbrev Files := String → Option String

/-- Modelled from the spec: `utils.ReplaceInFile` is not among the sources, only
its test is (fs_test.go 203-229).  It reads the file at the path, replaces
every occurrence of `old` in its content by `new` and writes the result back
to the same path; it fails when the file cannot be read. -/
def ReplaceInFile (files : Files) (path old new : String) : GoError × Files :=
  match files path with
  | none => (some "open: no such file or directory", files)
  | some content =>
    (none, fun q =>
      if q = path then some (String.mk (ReplaceAll content.data old.data new.data))
      else files q)

/-! ## The build scheduler -/

/-- Modelled from the spec: the build scheduler behind `AddBuildTrigger` is not
among the sources.  The state of one documentation id, as §4.4 has it: `Idle`,
`Pending` (the debounce countdown runs) or `Building`; a trigger that arrives
while the build is in flight is recorded as a reentry. -/
inductive Phase where
  | Idle
  | Pending
  | Building (reentry : Bool)
deriving DecidableEq, Repr

/-- Modelled from the spec: what can happen to the scheduler (§4.4): a trigger
arrives for a documentation id, forced or not; the debounce countdown of an id
fires; the generator run of an id comes back, with success or not (a build
that exceeds the maximum duration comes back as failed). -/
inductive SchedEvent where
  | trigger (docId : Nat) (force : Bool)
  | countdown (docId : Nat)
  | finished (docId : Nat) (success : Bool)
deriving DecidableEq, Repr

/-- Modelled from the spec: the scheduler state: the phase of every
documentation id, the error state retained from its last build, and the
builds that execute now, one entry with the documentation id per build. -/
structure Scheduler where
  phase : Nat → Phase
  failed : Nat → Bool
  running : List Nat

/-- Set the phase of one documentation id. -/
def Scheduler.setPhase (s : Scheduler) (docId : Nat) (p : Phase) : Scheduler :=
  { s with phase := fun d => if d = docId then p else s.phase d }

/-- Modelled from the spec: the transition to `Building`: the generator is
invoked for the documentation id. -/
def Scheduler.startBuild (s : Scheduler) (docId : Nat) : Scheduler :=
  { s.setPhase docId (.Building false) with running := docId :: s.running }

/-- Modelled from the spec: one step of the scheduler (§4.4).  A trigger that
is not forced starts or resets the countdown; a forced trigger and the firing
countdown start the build; a trigger that arrives while the build is in flight
is recorded and does not start another build; when the generator comes back
the id becomes `Idle`, or `Pending` again when a reentry was recorded. -/
def Scheduler.step (s : Scheduler) : SchedEvent → Scheduler
  | .trigger docId force =>
    match s.phase docId with
    | .Idle => if force then s.startBuild docId else s.setPhase docId .Pending
    | .Pending => if force then s.startBuild docId else s.setPhase docId .Pending
    | .Building _ => s.setPhase docId (.Building true)
  | .countdown docId =>
    match s.phase docId with
    | .Pending => s.startBuild docId
    | _ => s
  | .finished docId success =>
    match s.phase docId with
    | .Building reentry =>
      { s.setPhase docId (if reentry then .Pending else .Idle) with
        failed := fun d => if d = docId then !success else s.failed d
        running := s.running.erase docId }
    | _ => s

/-- The scheduler at start: every documentation id idle, no build executing. -/
def Scheduler.init : Scheduler :=
  ⟨fun _ => .Idle, fun _ => false, []⟩

/-- The scheduler after a sequence of events. -/
def Scheduler.run (events : List SchedEvent) : Scheduler :=
  events.foldl Scheduler.step Scheduler.init

/-- The builds that execute for a documentation id are as many as its phase
says: one while it is `Building`, none otherwise. -/
def Scheduler.consistent (s : Scheduler) : Prop :=
  ∀ docId, s.running.count docId =
    match s.phase docId with
    | .Building _ => 1
    | _ => 0

/-! ## Sample data -/

/-- A sample user. -/
def alice : User := ⟨1, "alice"⟩

/-- Another sample user. -/
def bob : User := ⟨2, "bob"⟩

/-- A sample stored page of documentation 7, written and last edited by `alice`. -/
def page1 : Page := ⟨1, "Intro", "intro", "old text", 7, none, some 0, 1, some 1, []⟩

/-- A sample store: `page1` with `alice` as its editor. -/
def db0 : DB := ⟨[page1], [(1, alice)]⟩

/-- A sample state with no trigger call made yet. -/
def w0 : World := ⟨db0, []⟩

/-- A sample environment: nothing fails and every documentation is an original. -/
def env0 : Env := ⟨Faults.none, fun _ => 0⟩

/-- A sample environment in which only `AddBuildTrigger` fails. -/
def envTriggerFails : Env :=
  ⟨⟨false, false, false, false, false, false, false, false, true⟩, fun _ => 0⟩

/-- A sample environment in which only the `First` of the operation fails. -/
def envFirstFails : Env :=
  ⟨⟨false, true, false, false, false, false, false, false, false⟩, fun _ => 0⟩

/-- A sample environment: nothing fails and documentation 7 is a version whose
root is documentation 3. -/
def envRoot : Env := ⟨Faults.none, fun d => if d = 7 then 3 else 0⟩

/-- A sample new page of documentation 7, as the create handler builds it. -/
def page2 : Page := ⟨0, "Setup", "setup", "text", 7, none, none, 2, some 2, [bob]⟩

/-- A sample resolver: everything under `/docs/` belongs to the documentation
built in `/out/doc1`. -/
def resolve0 (urlPath : String) : Except String (String × String) :=
  if "/docs/".data.isPrefixOf urlPath.data then .ok ("/out/doc1", "/docs/")
  else .error "not_found"

/-- A sample file system holding one built file. -/
def stat0 (path : String) : StatResult :=
  if path = "/out/doc1/guide/a.html" then .found else .notExist

/-- Sample collaborators: the token `tok-bob` is the one of `bob`, every service
call succeeds and a created entity gets the id 9. -/
def svc0 : Services :=
  ⟨fun t => if t = "tok-bob" then some bob else none, fun _ => (none, 9)⟩

/-- A sample request body, as `ValidateRequest` hands it over. -/
def body0 : Body :=
  ⟨1, "Docs", "Intro", "intro", "text", 7, none, none, some 2, 7, "v2",
    [⟨1, some 0, none, none, false⟩]⟩

/-- A sample sibling of `page1`: same documentation, top level, order 5. -/
def page3 : Page := ⟨3, "Setup", "setup", "more text", 7, none, some 5, 1, some 1, []⟩

/-- A sample page in page group 4. -/
def page4 : Page := ⟨4, "Usage", "usage", "text", 7, some 4, some 1, 1, some 1, []⟩

/-- A sample store with the three pages. -/
def db2 : DB := ⟨[page1, page3, page4], [(1, alice)]⟩

/-- A sample state on `db2`. -/
def w2 : World := ⟨db2, []⟩

/-- A sample disk: nothing exists yet and `os.Mkdir` works. -/
def disk0 : Disk := ⟨[], fun _ => false⟩

/-- The file of `TestReplaceInFile`, next to another file. -/
def files0 : Files := fun q =>
  if q = "./testfile.txt" then some "Hello, world! Hello again!"
  else if q = "./other.txt" then some "Hello" else none

/-! ## Lemmas on the store -/

theorem find_ID {l : List Page} {id : Nat} {p : Page}
    (h : l.find? (fun p => decide (p.ID = id)) = some p) : p.ID = id ∧ p ∈ l := by
  refine ⟨?_, List.mem_of_find?_eq_some h⟩
  have := List.find?_some h
  simpa using this

theorem First_ok {db : DB} {f : Bool} {id : Nat} {q : Page}
    (h : db.First f id = .ok q) :
    f = false ∧ ∃ p, db.pages.find? (fun p => decide (p.ID = id)) = some p ∧ q = p.row := by
  unfold DB.First at h
  cases f with
  | true => simp at h
  | false =>
    refine ⟨rfl, ?_⟩
    cases hf : db.pages.find? (fun p => decide (p.ID = id)) with
    | none => simp [hf] at h
    | some p =>
      simp only [hf, Bool.false_eq_true, if_false] at h
      cases hr : p.readable with
      | false => simp [hr] at h
      | true =>
        simp only [hr, if_true, Except.ok.injEq] at h
        exact ⟨p, rfl, h.symm⟩

/-- A row that `First` hands over reads back. -/
theorem First_readable {db : DB} {f : Bool} {id : Nat} {q p : Page}
    (h : db.First f id = .ok q)
    (hp : db.pages.find? (fun p => decide (p.ID = id)) = some p) :
    p.readable = true := by
  unfold DB.First at h
  cases f with
  | true => simp at h
  | false =>
    simp only [hp, Bool.false_eq_true, if_false] at h
    cases hr : p.readable with
    | false => simp [hr] at h
    | true => rfl

/-- Whether a row reads back does not depend on the editors held in memory. -/
theorem readable_row (p : Page) : p.row.readable = p.readable := rfl

theorem any_of_find {l : List Page} {id : Nat} {p : Page}
    (h : l.find? (fun p => decide (p.ID = id)) = some p) :
    l.any (fun p => decide (p.ID = id)) = true := by
  obtain ⟨h1, h2⟩ := find_ID h
  exact List.any_eq_true.mpr ⟨p, h2, by simpa using h1⟩

theorem find_map_replace (l : List Page) (id : Nat) (q : Page) (hq : q.ID = id)
    (h : l.any (fun p => decide (p.ID = id)) = true) :
    (l.map (fun p => if p.ID = id then q else p)).find? (fun p => decide (p.ID = id))
      = some q := by
  induction l with
  | nil => simp at h
  | cons a t ih =>
    by_cases ha : a.ID = id
    · simp [ha, hq]
    · have ht : t.any (fun p => decide (p.ID = id)) = true := by
        simpa [ha] using h
      simp [ha, List.find?_cons, ih ht]

/-! ## Lemmas on `EditPage` -/

theorem editedPage_ID (page : Page) (user : User) (t sl c : String) (o g : Option Nat) :
    (editedPage page user t sl c o g).ID = page.ID := by
  unfold editedPage
  cases o <;> cases g <;> by_cases hc : c = "" <;> simp [hc]

theorem editedPage_Editors (page : Page) (user : User) (t sl c : String)
    (o g : Option Nat) :
    (editedPage page user t sl c o g).Editors = addEditor page.Editors user := by
  unfold editedPage
  cases o <;> cases g <;> by_cases hc : c = "" <;> simp [hc]

theorem editedPage_Content (page : Page) (user : User) (t sl c : String)
    (o g : Option Nat) :
    (editedPage page user t sl c o g).Content = if c = "" then page.Content else c := by
  unfold editedPage
  cases o <;> cases g <;> by_cases hc : c = "" <;> simp [hc]

theorem editedPage_AuthorID (page : Page) (user : User) (t sl c : String)
    (o g : Option Nat) :
    (editedPage page user t sl c o g).AuthorID = page.AuthorID := by
  unfold editedPage
  cases o <;> cases g <;> by_cases hc : c = "" <;> simp [hc]

theorem editedPage_DocumentationID (page : Page) (user : User) (t sl c : String)
    (o g : Option Nat) :
    (editedPage page user t sl c o g).DocumentationID = page.DocumentationID := by
  unfold editedPage
  cases o <;> cases g <;> by_cases hc : c = "" <;> simp [hc]

theorem editedPage_LastEditorID (page : Page) (user : User) (t sl c : String)
    (o g : Option Nat) :
    (editedPage page user t sl c o g).LastEditorID = some user.ID := by
  unfold editedPage
  cases o <;> cases g <;> by_cases hc : c = "" <;> simp [hc]

/-- What a committed `EditPage` transaction has written. -/
theorem EditPageTx_ok {env : Env} {db db1 : DB} {user : User} {id : Nat}
    {t sl c : String} {o g : Option Nat}
    (h : EditPageTx env db user id t sl c o g = .ok db1) :
    ∃ p, db.pages.find? (fun p => decide (p.ID = id)) = some p ∧
      db1 = ⟨db.pages.map (fun r => if r.ID = id then
                (editedPage (loaded db p id) user t sl c o g).row else r),
              insertLinks db.page_editors id (addEditor (db.Editors id) user)⟩ := by
  unfold EditPageTx DB.PreloadFirst at h
  cases hF : db.First (env.faults.begin || env.faults.first) id with
  | error e => simp [hF] at h
  | ok q =>
    obtain ⟨-, p, hp, rfl⟩ := First_ok hF
    refine ⟨p, hp, ?_⟩
    have hid : p.ID = id := (find_ID hp).1
    have hany := any_of_find hp
    simp only [hF] at h
    change (match db.Save env.faults.save
        (editedPage (loaded db p id) user t sl c o g) with
      | .error _ => Except.error "failed_to_update_page"
      | .ok tx => if env.faults.commit then .error "failed_to_commit_changes"
          else .ok tx) = .ok db1 at h
    generalize hL : loaded db p id = L at h ⊢
    have hLid : L.ID = id := by rw [← hL]; simpa [loaded, Page.row] using hid
    have hLed : L.Editors = db.Editors id := by rw [← hL]; rfl
    unfold DB.Save at h
    cases hs : env.faults.save with
    | true => simp [hs] at h
    | false =>
      cases hcm : env.faults.commit with
      | true => simp [hs, hcm] at h
      | false =>
        simp only [hs, hcm, Bool.false_eq_true, if_false, editedPage_ID,
          editedPage_Editors] at h
        simp only [hLid, hLed, hany, if_true, Except.ok.injEq] at h
        exact h.symm

/-- The documentation id the four operations hand to `AddBuildTrigger`. -/
theorem triggerBuild_eq (env : Env) (w : World) (docId : Nat) :
    triggerBuild env w docId =
      (if env.faults.trigger then some "failed_to_update_write_build" else none,
        { w with triggers := w.triggers ++
          [(if env.GetRootParentID docId = 0 then docId
            else env.GetRootParentID docId, false)] }) := by
  unfold triggerBuild AddBuildTrigger
  by_cases h0 : env.GetRootParentID docId = 0 <;>
    cases ht : env.faults.trigger <;> simp [h0]

theorem GetDocumentationIDOfPage_ok {env : Env} {w : World} {id docId : Nat}
    (h : GetDocumentationIDOfPage env w id = .ok docId) :
    ∃ p, w.db.pages.find? (fun p => decide (p.ID = id)) = some p ∧
      docId = p.DocumentationID := by
  unfold GetDocumentationIDOfPage at h
  cases hF : w.db.First env.faults.docIdFirst id with
  | error e => cases e <;> simp [hF] at h
  | ok q =>
    obtain ⟨-, p, hp, rfl⟩ := First_ok hF
    simp only [hF, Except.ok.injEq] at h
    exact ⟨p, hp, h.symm⟩

/-- A successful `EditPage`: the transaction committed, the documentation id was
found and one trigger call was made. -/
theorem EditPage_ok {env : Env} {w w1 : World} {user : User} {id : Nat}
    {t sl c : String} {o g : Option Nat}
    (h : EditPage env w user id t sl c o g = (none, w1)) :
    ∃ db1 docId, EditPageTx env w.db user id t sl c o g = .ok db1 ∧
      GetDocumentationIDOfPage env ⟨db1, w.triggers⟩ id = .ok docId ∧
      w1 = ⟨db1, w.triggers ++
        [(if env.GetRootParentID docId = 0 then docId
          else env.GetRootParentID docId, false)]⟩ := by
  unfold EditPage at h
  cases hT : EditPageTx env w.db user id t sl c o g with
  | error e => simp [hT] at h
  | ok db1 =>
    simp only [hT] at h
    cases hD : GetDocumentationIDOfPage env ⟨db1, w.triggers⟩ id with
    | error e => simp [hD] at h
    | ok docId =>
      simp only [hD, triggerBuild_eq, Prod.mk.injEq] at h
      exact ⟨db1, docId, rfl, hD, h.2.symm⟩

/-- The row found under the id of a page after a committed `EditPage`
transaction. -/
theorem find_after_EditPageTx {env : Env} {db db1 : DB} {user : User} {id : Nat}
    {t sl c : String} {o g : Option Nat} {p : Page}
    (hp : db.pages.find? (fun p => decide (p.ID = id)) = some p)
    (h : EditPageTx env db user id t sl c o g = .ok db1) :
    db1.pages.find? (fun p => decide (p.ID = id)) =
      some (editedPage (loaded db p id) user t sl c o g).row := by
  obtain ⟨p1, hp1, rfl⟩ := EditPageTx_ok h
  have hpp : p1 = p := by rw [hp] at hp1; exact (Option.some.inj hp1).symm
  subst hpp
  have hid : p1.ID = id := (find_ID hp).1
  exact find_map_replace db.pages id _ (by simp [Page.row, editedPage_ID, loaded, hid])
    (any_of_find hp)

/-- A row that reads back is what `First` hands over. -/
theorem First_of_find {db : DB} {id : Nat} {p : Page}
    (h : db.pages.find? (fun p => decide (p.ID = id)) = some p)
    (hr : p.readable = true) :
    db.First false id = .ok p.row := by
  unfold DB.First
  simp [h, hr]

/-- A successful documentation-id lookup has read the row found under the id. -/
theorem First_of_lookup {env : Env} {w : World} {id d : Nat} {p : Page}
    (h : GetDocumentationIDOfPage env w id = .ok d)
    (hp : w.db.pages.find? (fun p => decide (p.ID = id)) = some p) :
    w.db.First false id = .ok p.row := by
  unfold GetDocumentationIDOfPage at h
  cases hF : w.db.First env.faults.docIdFirst id with
  | error e => cases e <;> simp [hF] at h
  | ok q => exact First_of_find hp (First_readable hF hp)

/-- The stored row of a page after a committed `EditPage` transaction whose
row reads back. -/
theorem First_after_EditPageTx {env : Env} {db db1 : DB} {user : User} {id : Nat}
    {t sl c : String} {o g : Option Nat} {p : Page} {trig : List (Nat × Bool)} {d : Nat}
    (hp : db.pages.find? (fun p => decide (p.ID = id)) = some p)
    (h : EditPageTx env db user id t sl c o g = .ok db1)
    (hD : GetDocumentationIDOfPage env ⟨db1, trig⟩ id = .ok d) :
    db1.First false id = .ok (editedPage (loaded db p id) user t sl c o g).row :=
  @First_of_lookup env ⟨db1, trig⟩ id d (editedPage (loaded db p id) user t sl c o g).row
    hD (find_after_EditPageTx hp h)

/-- The row a committed `EditPage` transaction has loaded reads back. -/
theorem EditPageTx_readable {env : Env} {db db1 : DB} {user : User} {id : Nat}
    {t sl c : String} {o g : Option Nat} {p : Page}
    (hp : db.pages.find? (fun p => decide (p.ID = id)) = some p)
    (h : EditPageTx env db user id t sl c o g = .ok db1) :
    p.readable = true := by
  unfold EditPageTx DB.PreloadFirst at h
  cases hF : db.First (env.faults.begin || env.faults.first) id with
  | error e => simp [hF] at h
  | ok q => exact First_readable hF hp

/-! ## C1 -/

/-- C1: for an existing page and a successful `EditPage`, the stored content
after the call is the stored content before it when the content argument is
empty, and is exactly the argument when it is not. -/
theorem C1_EditPage_content (env : Env) (w w1 : World) (user : User) (id : Nat)
    (t sl c : String) (o g : Option Nat) (p : Page)
    (hp : w.db.First false id = .ok p)
    (h : EditPage env w user id t sl c o g = (none, w1)) :
    ∃ p1, w1.db.First false id = .ok p1 ∧
      (c = "" → p1.Content = p.Content) ∧ (c ≠ "" → p1.Content = c) := by
  obtain ⟨db1, docId, hT, hD, rfl⟩ := EditPage_ok h
  obtain ⟨-, p0, hp0, rfl⟩ := First_ok hp
  refine ⟨_, First_after_EditPageTx hp0 hT hD, ?_, ?_⟩
  · intro hc
    simp [Page.row, editedPage_Content, hc, loaded]
  · intro hc
    simp [Page.row, editedPage_Content, hc, loaded]

/-- C1 at the sample store: `bob` edits `page1` with an empty content. -/
theorem C1_EditPage_content_witness :
    ∃ p1, (⟨⟨[⟨1, "T", "s", "old text", 7, none, some 0, 1, some 2, []⟩],
              [(1, alice), (1, bob)]⟩, [(7, false)]⟩ : World).db.First false 1 = .ok p1 ∧
      ("" = "" → p1.Content = page1.row.Content) ∧ ("" ≠ "" → p1.Content = "") :=
  C1_EditPage_content env0 w0 _ bob 1 "T" "s" "" none none page1.row
    rfl (by decide)

/-! ## Lemmas on the editor links -/

theorem Editors_append (pages : List Page) (links : List (Nat × User)) (id : Nat)
    (u : User) :
    (DB.mk pages (links ++ [(id, u)])).Editors id = (DB.mk pages links).Editors id ++ [u] := by
  simp [DB.Editors, List.filter_append]

theorem mem_Editors {db : DB} {id : Nat} {u : User} :
    u ∈ db.Editors id ↔ (id, u) ∈ db.page_editors := by
  unfold DB.Editors
  constructor
  · intro h
    obtain ⟨l, hl, rfl⟩ := List.mem_map.mp h
    obtain ⟨hm, hid⟩ := List.mem_filter.mp hl
    have : l.1 = id := by simpa using hid
    rw [← this]
    exact hm
  · intro h
    exact List.mem_map.mpr ⟨(id, u), List.mem_filter.mpr ⟨h, by simp⟩, rfl⟩

/-- Inserting again the links that are already there changes nothing. -/
theorem insertLinks_present (links : List (Nat × User)) (id : Nat) (us : List User)
    (h : ∀ u ∈ us, (id, u) ∈ links) : insertLinks links id us = links := by
  unfold insertLinks
  induction us with
  | nil => rfl
  | cons u t ih =>
    have hu : insertLink links id u = links := by
      unfold insertLink
      have : links.any (fun l => decide (l.1 = id ∧ l.2.ID = u.ID)) = true :=
        List.any_eq_true.mpr ⟨(id, u), h u (List.mem_cons_self _ _), by simp⟩
      rw [if_pos this]
    rw [List.foldl_cons, hu]
    exact ih (fun v hv => h v (List.mem_cons_of_mem _ hv))

theorem insertLinks_append (links : List (Nat × User)) (id : Nat) (us : List User)
    (u : User) :
    insertLinks links id (us ++ [u]) = insertLink (insertLinks links id us) id u := by
  simp [insertLinks, List.foldl_append]

/-- The editor links a committed `EditPage` leaves: unchanged when the user is
already an editor, one more link otherwise. -/
theorem links_after_edit (db : DB) (id : Nat) (user : User) :
    insertLinks db.page_editors id (addEditor (db.Editors id) user) =
      if (db.Editors id).any (fun e => decide (e.ID = user.ID)) then db.page_editors
      else db.page_editors ++ [(id, user)] := by
  have hall : ∀ u ∈ db.Editors id, (id, u) ∈ db.page_editors :=
    fun u hu => mem_Editors.mp hu
  unfold addEditor
  by_cases hany : (db.Editors id).any (fun e => decide (e.ID = user.ID)) = true
  · simp only [hany, if_true]
    exact insertLinks_present _ _ _ hall
  · simp only [hany, Bool.false_eq_true, if_false]
    rw [insertLinks_append, insertLinks_present _ _ _ hall]
    unfold insertLink
    have : db.page_editors.any (fun l => decide (l.1 = id ∧ l.2.ID = user.ID)) = false := by
      rw [Bool.eq_false_iff]
      intro hc
      apply hany
      obtain ⟨l, hl, hd⟩ := List.any_eq_true.mp hc
      have hd2 : l.1 = id ∧ l.2.ID = user.ID := by simpa using hd
      refine List.any_eq_true.mpr ⟨l.2, ?_, by simpa using hd2.2⟩
      apply mem_Editors.mpr
      rw [← hd2.1]
      exact hl
    rw [if_neg (by rw [this]; decide)]

/-- The editor list of the page after a committed `EditPage` transaction. -/
theorem Editors_after_EditPageTx {env : Env} {db db1 : DB} {user : User} {id : Nat}
    {t sl c : String} {o g : Option Nat}
    (h : EditPageTx env db user id t sl c o g = .ok db1) :
    db1.Editors id = addEditor (db.Editors id) user := by
  obtain ⟨p, -, rfl⟩ := EditPageTx_ok h
  have hl := links_after_edit db id user
  by_cases hany : (db.Editors id).any (fun e => decide (e.ID = user.ID)) = true
  · rw [if_pos hany] at hl
    rw [hl]
    unfold addEditor
    rw [if_pos hany]
    rfl
  · rw [if_neg hany] at hl
    rw [hl]
    unfold addEditor
    rw [if_neg hany]
    exact Editors_append _ db.page_editors id user

/-- The store `EditPage` leaves: the committed one, or the one before. -/
theorem EditPage_db (env : Env) (w : World) (user : User) (id : Nat)
    (t sl c : String) (o g : Option Nat) :
    (EditPage env w user id t sl c o g).2.db = w.db ∨
      EditPageTx env w.db user id t sl c o g =
        .ok (EditPage env w user id t sl c o g).2.db := by
  unfold EditPage
  cases hT : EditPageTx env w.db user id t sl c o g with
  | error e => left; rfl
  | ok db1 =>
    right
    simp only
    cases hD : GetDocumentationIDOfPage env ⟨db1, w.triggers⟩ id with
    | error e => rfl
    | ok docId => simp [triggerBuild_eq]

theorem addEditor_nodup (es : List User) (user : User)
    (h : (es.map (fun e => e.ID)).Nodup) :
    ((addEditor es user).map (fun e => e.ID)).Nodup := by
  unfold addEditor
  by_cases hany : es.any (fun e => decide (e.ID = user.ID)) = true
  · simpa [hany] using h
  · simp only [hany, Bool.false_eq_true, if_false, List.map_append, List.map_cons,
      List.map_nil]
    rw [List.nodup_append]
    refine ⟨h, List.nodup_singleton _, ?_⟩
    intro a ha hb
    have hb2 : a = user.ID := by simpa using hb
    subst hb2
    obtain ⟨e, he, hid⟩ := List.mem_map.mp ha
    exact hany (List.any_eq_true.mpr ⟨e, he, by simpa using hid⟩)

theorem addEditor_mem (es : List User) (user : User) :
    ∃ e ∈ addEditor es user, e.ID = user.ID := by
  unfold addEditor
  by_cases hany : es.any (fun e => decide (e.ID = user.ID)) = true
  · obtain ⟨e, he, hid⟩ := List.any_eq_true.mp hany
    exact ⟨e, by simpa [hany] using he, by simpa using hid⟩
  · exact ⟨user, by simp [hany], rfl⟩

theorem addEditor_of_mem (es : List User) (user : User)
    (h : ∃ e ∈ es, e.ID = user.ID) : addEditor es user = es := by
  unfold addEditor
  obtain ⟨e, he, hid⟩ := h
  have : es.any (fun e => decide (e.ID = user.ID)) = true :=
    List.any_eq_true.mpr ⟨e, he, by simpa using hid⟩
  simp [this]

theorem addEditor_subset (es : List User) (user u : User) (h : u ∈ es) :
    u ∈ addEditor es user := by
  unfold addEditor
  by_cases hany : es.any (fun e => decide (e.ID = user.ID)) = true
  · rw [if_pos hany]; exact h
  · rw [if_neg hany]; exact List.mem_append_left _ h

/-- A committed transaction is the store `EditPage` leaves. -/
theorem EditPage_db_of_commit {env : Env} {w : World} {user : User} {id : Nat}
    {t sl c : String} {o g : Option Nat} {db1 : DB}
    (h : EditPageTx env w.db user id t sl c o g = .ok db1) :
    (EditPage env w user id t sl c o g).2.db = db1 := by
  rcases EditPage_db env w user id t sl c o g with h1 | h1
  · unfold EditPage at h1 ⊢
    simp only [h] at h1 ⊢
    cases hD : GetDocumentationIDOfPage env ⟨db1, w.triggers⟩ id with
    | error e => rfl
    | ok docId => simp [triggerBuild_eq]
  · rw [h] at h1
    exact (Except.ok.inj h1).symm

/-! ## C2 -/

/-- C2: when the editor list of a page holds no user id twice, it holds none
twice after `EditPage` by any user, and once a call of `EditPage` by a user has
committed (in particular after a successful call), a second `EditPage` by the
same user leaves the editor list as the first call left it. -/
theorem C2_EditPage_editor_idempotent (env env2 : Env) (w : World) (user : User)
    (id : Nat) (t sl c : String) (o g : Option Nat) (t2 sl2 c2 : String)
    (o2 g2 : Option Nat)
    (hnd : ((w.db.Editors id).map (fun e => e.ID)).Nodup) :
    (((EditPage env w user id t sl c o g).2.db.Editors id).map (fun e => e.ID)).Nodup ∧
    ((∃ db1, EditPageTx env w.db user id t sl c o g = .ok db1) →
      (EditPage env2 (EditPage env w user id t sl c o g).2
          user id t2 sl2 c2 o2 g2).2.db.Editors id
        = (EditPage env w user id t sl c o g).2.db.Editors id) := by
  constructor
  · rcases EditPage_db env w user id t sl c o g with h1 | h1
    · rw [h1]; exact hnd
    · rw [Editors_after_EditPageTx h1]
      exact addEditor_nodup _ _ hnd
  · rintro ⟨db1, hT⟩
    have hdb := EditPage_db_of_commit hT
    have hmem : ∃ e ∈ db1.Editors id, e.ID = user.ID := by
      rw [Editors_after_EditPageTx hT]
      exact addEditor_mem _ _
    generalize EditPage env w user id t sl c o g = r1 at hdb ⊢
    rcases EditPage_db env2 r1.2 user id t2 sl2 c2 o2 g2 with h2 | h2
    · rw [h2]
    · rw [Editors_after_EditPageTx h2, hdb]
      exact addEditor_of_mem _ _ hmem

/-- C2 at the sample store: `bob` edits `page1` twice. -/
theorem C2_EditPage_editor_idempotent_witness :
    (((EditPage env0 w0 bob 1 "T" "s" "" none none).2.db.Editors 1).map
        (fun e => e.ID)).Nodup ∧
    (EditPage envTriggerFails (EditPage env0 w0 bob 1 "T" "s" "" none none).2
        bob 1 "U" "s" "new" (some 3) none).2.db.Editors 1
      = (EditPage env0 w0 bob 1 "T" "s" "" none none).2.db.Editors 1 :=
  ⟨(C2_EditPage_editor_idempotent env0 envTriggerFails w0 bob 1 "T" "s" "" none none
      "U" "s" "new" (some 3) none (by decide)).1,
   (C2_EditPage_editor_idempotent env0 envTriggerFails w0 bob 1 "T" "s" "" none none
      "U" "s" "new" (some 3) none (by decide)).2 ⟨_, rfl⟩⟩

/-! ## C3 -/

/-- C3: after a successful `EditPage` every former editor of the page is still
an editor, the editing user is an editor and is the stored last editor, and the
stored author is the one stored before the call. -/
theorem C3_EditPage_provenance (env : Env) (w w1 : World) (user : User) (id : Nat)
    (t sl c : String) (o g : Option Nat)
    (h : EditPage env w user id t sl c o g = (none, w1)) :
    (∀ u ∈ w.db.Editors id, u ∈ w1.db.Editors id) ∧
    (∃ e ∈ w1.db.Editors id, e.ID = user.ID) ∧
    ∃ p p1, w.db.First false id = .ok p ∧ w1.db.First false id = .ok p1 ∧
      p1.LastEditorID = some user.ID ∧ p1.AuthorID = p.AuthorID := by
  obtain ⟨db1, docId, hT, hD, rfl⟩ := EditPage_ok h
  obtain ⟨p0, hp0, -⟩ := EditPageTx_ok hT
  refine ⟨?_, ?_, p0.row, _, ?_, First_after_EditPageTx hp0 hT hD, ?_, ?_⟩
  · intro u hu
    show u ∈ db1.Editors id
    rw [Editors_after_EditPageTx hT]
    exact addEditor_subset _ _ _ hu
  · show ∃ e ∈ db1.Editors id, e.ID = user.ID
    rw [Editors_after_EditPageTx hT]
    exact addEditor_mem _ _
  · exact First_of_find hp0 (EditPageTx_readable hp0 hT)
  · simp [Page.row, editedPage_LastEditorID]
  · simp [Page.row, editedPage_AuthorID, loaded]

/-- C3 at the sample store: `bob` edits `page1`, written by `alice`. -/
theorem C3_EditPage_provenance_witness :
    (∀ u ∈ w0.db.Editors 1, u ∈ (EditPage env0 w0 bob 1 "T" "s" "x" none none).2.db.Editors 1) ∧
    (∃ e ∈ (EditPage env0 w0 bob 1 "T" "s" "x" none none).2.db.Editors 1, e.ID = bob.ID) ∧
    ∃ p p1, w0.db.First false 1 = .ok p ∧
      (EditPage env0 w0 bob 1 "T" "s" "x" none none).2.db.First false 1 = .ok p1 ∧
      p1.LastEditorID = some bob.ID ∧ p1.AuthorID = p.AuthorID :=
  C3_EditPage_provenance env0 w0 _ bob 1 "T" "s" "x" none none (by decide)

/-! ## Lemmas on the build-trigger step -/

theorem find_append_new (l : List Page) (q : Page) (id : Nat) (hq : q.ID = id)
    (h : l.any (fun p => decide (p.ID = id)) = false) :
    (l ++ [q]).find? (fun p => decide (p.ID = id)) = some q := by
  have hn : l.find? (fun p => decide (p.ID = id)) = none := by
    rw [List.find?_eq_none]
    intro x hx hp
    have : l.any (fun p => decide (p.ID = id)) = true :=
      List.any_eq_true.mpr ⟨x, hx, hp⟩
    rw [h] at this
    exact Bool.false_ne_true this
  simp [List.find?_append, hn, hq]

/-- The row found under the primary key of a page just saved. -/
theorem find_after_Save {db db1 : DB} {f : Bool} {q : Page}
    (h : db.Save f q = .ok db1) :
    db1.pages.find? (fun p => decide (p.ID = q.ID)) = some q.row := by
  unfold DB.Save at h
  cases f with
  | true => simp at h
  | false =>
    simp only [Bool.false_eq_true, if_false, Except.ok.injEq] at h
    subst h
    by_cases hany : db.pages.any (fun p => decide (p.ID = q.ID)) = true
    · simp only [if_pos hany]
      exact find_map_replace db.pages q.ID q.row rfl hany
    · simp only [if_neg hany]
      exact find_append_new db.pages q.row q.ID rfl (by simpa using hany)

/-- The documentation id a lookup answers is the one of the row found. -/
theorem lookup_eq_find {env : Env} {w : World} {id d : Nat} {p : Page}
    (h : GetDocumentationIDOfPage env w id = .ok d)
    (hp : w.db.pages.find? (fun p => decide (p.ID = id)) = some p) :
    d = p.DocumentationID := by
  obtain ⟨p1, hp1, rfl⟩ := GetDocumentationIDOfPage_ok h
  rw [hp] at hp1
  cases hp1
  rfl

/-- The row a successful lookup has found reads back. -/
theorem lookup_readable {env : Env} {w : World} {id d : Nat} {p : Page}
    (h : GetDocumentationIDOfPage env w id = .ok d)
    (hp : w.db.pages.find? (fun p => decide (p.ID = id)) = some p) :
    p.readable = true := by
  unfold GetDocumentationIDOfPage at h
  cases hF : w.db.First env.faults.docIdFirst id with
  | error e => cases e <;> simp [hF] at h
  | ok q => exact First_readable hF hp

/-- The documentation id `GetDocumentationIDOfPage` answers is the stored one. -/
theorem GetDocumentationIDOfPage_eq {env : Env} {w : World} {id d : Nat} {q : Page}
    (h : GetDocumentationIDOfPage env w id = .ok d)
    (hq : w.db.First false id = .ok q) : d = q.DocumentationID := by
  obtain ⟨p, hp, rfl⟩ := GetDocumentationIDOfPage_ok h
  obtain ⟨-, p2, hp2, rfl⟩ := First_ok hq
  rw [hp] at hp2
  cases hp2
  rfl

theorem specSchedulingKey_eq (env : Env) (d : Nat) :
    (if env.GetRootParentID d = 0 then d else env.GetRootParentID d) =
      specSchedulingKey (env.GetRootParentID d) d := by
  unfold specSchedulingKey
  by_cases h : env.GetRootParentID d = 0 <;> simp [h]

/-- What a successful `Create` has inserted. -/
theorem Create_ok {db db1 : DB} {f : Bool} {page page1 : Page}
    (h : db.Create f page = .ok (page1, db1)) :
    page1.DocumentationID = page.DocumentationID ∧
      db1.pages = db.pages ++ [page1.row] ∧
      db.pages.any (fun p => decide (p.ID = page1.ID)) = false ∧
      db1.page_editors = insertLinks db.page_editors page1.ID page1.Editors := by
  unfold DB.Create at h
  cases f with
  | true => simp at h
  | false =>
    dsimp only at h
    rw [if_neg Bool.false_ne_true] at h
    generalize hpg : (if page.ID = 0 then { page with ID := db.nextID } else page) = pg at h
    have hdoc : pg.DocumentationID = page.DocumentationID := by
      rw [← hpg]
      by_cases h0 : page.ID = 0 <;> simp [h0]
    by_cases hany : db.pages.any (fun p => decide (p.ID = pg.ID)) = true
    · rw [if_pos hany] at h
      cases h
    · rw [if_neg hany] at h
      simp only [Except.ok.injEq, Prod.mk.injEq] at h
      obtain ⟨h1, h2⟩ := h
      subst h1
      subst h2
      exact ⟨hdoc, rfl, by simpa using hany, rfl⟩

theorem CreatePage_outcome (env : Env) (w : World) (page : Page) :
    Outcome env w (some page.DocumentationID)
      ((CreatePage env w page).1, (CreatePage env w page).2.1) := by
  unfold CreatePage
  cases hC : w.db.Create env.faults.create page with
  | error e => left; simp
  | ok pr =>
    obtain ⟨page1, db1⟩ := pr
    simp only
    cases hD : GetDocumentationIDOfPage env ⟨db1, w.triggers⟩ page1.ID with
    | error e => left; simp
    | ok docId =>
      right
      refine ⟨page.DocumentationID, rfl, ?_⟩
      obtain ⟨h1, h2, h3, -⟩ := Create_ok hC
      have hfind : db1.pages.find? (fun p => decide (p.ID = page1.ID))
          = some page1.row := by
        rw [h2]
        exact find_append_new _ _ _ rfl h3
      have hd : docId = page.DocumentationID := by
        rw [lookup_eq_find hD hfind, ← h1]
        rfl
      simp only
      rw [triggerBuild_eq, specSchedulingKey_eq, hd]
      exact ⟨rfl, rfl⟩

theorem EditPage_outcome (env : Env) (w : World) (user : User) (id : Nat)
    (t sl c : String) (o g : Option Nat) :
    Outcome env w (PageOp.docId w (.edit user id t sl c o g))
      (EditPage env w user id t sl c o g) := by
  unfold EditPage
  cases hT : EditPageTx env w.db user id t sl c o g with
  | error e => left; simp
  | ok db1 =>
    simp only
    cases hD : GetDocumentationIDOfPage env ⟨db1, w.triggers⟩ id with
    | error e => left; simp
    | ok docId =>
      right
      obtain ⟨p0, hp0, -⟩ := EditPageTx_ok hT
      have hd := lookup_eq_find hD (find_after_EditPageTx hp0 hT)
      refine ⟨p0.DocumentationID, ?_, ?_⟩
      · simp [PageOp.docId, First_of_find hp0 (EditPageTx_readable hp0 hT), Page.row]
      · simp only
        rw [triggerBuild_eq, specSchedulingKey_eq, hd]
        have hdoc : (editedPage (loaded w.db p0 id) user t sl c o g).row.DocumentationID
            = p0.DocumentationID := by
          simp [Page.row, editedPage_DocumentationID, loaded]
        rw [hdoc]
        exact ⟨rfl, rfl⟩

theorem DeletePage_outcome (env : Env) (w : World) (id : Nat) :
    Outcome env w (PageOp.docId w (.delete id)) (DeletePage env w id) := by
  unfold DeletePage
  cases hT : DeletePageTx env w.db id with
  | error e => left; simp
  | ok db1 =>
    simp only
    cases hD : GetDocumentationIDOfPage env w id with
    | error e => left; simp
    | ok docId =>
      right
      obtain ⟨p0, hp0, rfl⟩ := GetDocumentationIDOfPage_ok hD
      refine ⟨p0.DocumentationID, ?_, ?_⟩
      · simp [PageOp.docId, First_of_find hp0 (lookup_readable hD hp0), Page.row]
      · simp only
        rw [triggerBuild_eq, specSchedulingKey_eq]
        exact ⟨rfl, rfl⟩

theorem ReorderPage_outcome (env : Env) (w : World) (id : Nat) (g o : Option Nat) :
    Outcome env w (PageOp.docId w (.reorder id g o)) (ReorderPage env w id g o) := by
  unfold ReorderPage
  cases hF : w.db.First env.faults.first id with
  | error e => cases e <;> (left; simp)
  | ok page =>
    simp only
    cases hS : w.db.Save env.faults.save
        { page with PageGroupID := g, Order := o } with
    | error e => left; simp
    | ok db1 =>
      simp only
      cases hD : GetDocumentationIDOfPage env ⟨db1, w.triggers⟩ id with
      | error e => left; simp
      | ok docId =>
        right
        have hr0 := fun p hp => @First_readable _ _ _ _ p hF hp
        obtain ⟨hf, p0, hp0, rfl⟩ := First_ok hF
        have hid : p0.ID = id := (find_ID hp0).1
        have hS2 := find_after_Save hS
        simp only [Page.row] at hS2
        subst hid
        have hd := lookup_eq_find hD hS2
        refine ⟨p0.DocumentationID, ?_, ?_⟩
        · simp [PageOp.docId, First_of_find hp0 (hr0 p0 hp0), Page.row]
        · simp only
          rw [triggerBuild_eq, specSchedulingKey_eq, hd]
          exact ⟨rfl, rfl⟩

/-- Every call of a page operation ends as `Outcome` says. -/
theorem run_outcome (env : Env) (w : World) (op : PageOp) :
    Outcome env w (op.docId w) (op.run env w) := by
  cases op with
  | create page => exact CreatePage_outcome env w page
  | edit user id t sl c o g => exact EditPage_outcome env w user id t sl c o g
  | delete id => exact DeletePage_outcome env w id
  | reorder id g o => exact ReorderPage_outcome env w id g o

/-! ## C4 -/

/-- C4: whatever `CreatePage`, `EditPage`, `DeletePage` or `ReorderPage` hands to
`AddBuildTrigger` is the result of `GetRootParentID` for the page's documentation
when that result is non-zero and the page's own documentation id when it is
zero, and that key is not zero when the documentation id is not zero: a call
either makes no trigger call or makes one with that key. -/
theorem C4_trigger_key (env : Env) (w : World) (op : PageOp) :
    (op.run env w).2.triggers = w.triggers ∨
    ∃ d, op.docId w = some d ∧
      (op.run env w).2.triggers = w.triggers ++
        [(if env.GetRootParentID d ≠ 0 then env.GetRootParentID d else d, false)] ∧
      (d ≠ 0 → (if env.GetRootParentID d ≠ 0 then env.GetRootParentID d else d) ≠ 0) := by
  rcases run_outcome env w op with h | ⟨d, hd, -, ht⟩
  · exact Or.inl h.2
  · refine Or.inr ⟨d, hd, ht, ?_⟩
    intro hd0
    by_cases hr : env.GetRootParentID d = 0
    · simpa [hr] using hd0
    · simp [hr]

/-- C4 at the sample store: documentation 7 has root 3, so 3 is the key. -/
theorem C4_trigger_key_witness :
    (PageOp.run envRoot w0 (.delete 1)).2.triggers = w0.triggers ∨
    ∃ d, PageOp.docId w0 (.delete 1) = some d ∧
      (PageOp.run envRoot w0 (.delete 1)).2.triggers = w0.triggers ++
        [(if envRoot.GetRootParentID d ≠ 0 then envRoot.GetRootParentID d else d, false)] ∧
      (d ≠ 0 → (if envRoot.GetRootParentID d ≠ 0 then envRoot.GetRootParentID d else d) ≠ 0) :=
  C4_trigger_key envRoot w0 (.delete 1)

/-! ## C5 -/

/-- C5: a successful call of `CreatePage`, `EditPage`, `DeletePage` or
`ReorderPage` makes exactly one `AddBuildTrigger` call, for the resolved
documentation id of the page and with the flag `false`. -/
theorem C5_one_trigger_on_success (env : Env) (w w1 : World) (op : PageOp)
    (h : op.run env w = (none, w1)) :
    ∃ d, op.docId w = some d ∧
      w1.triggers = w.triggers ++
        [(if env.GetRootParentID d ≠ 0 then env.GetRootParentID d else d, false)] := by
  rcases run_outcome env w op with h1 | ⟨d, hd, -, ht⟩
  · rw [h] at h1
    exact absurd rfl h1.1
  · rw [h] at ht
    exact ⟨d, hd, ht⟩

/-- C5 at the sample store, for each of the four operations. -/
theorem C5_one_trigger_on_success_witness :
    (∃ d, PageOp.docId w0 (.create page2) = some d ∧
      (PageOp.run envRoot w0 (.create page2)).2.triggers = w0.triggers ++
        [(if envRoot.GetRootParentID d ≠ 0 then envRoot.GetRootParentID d else d, false)]) ∧
    (∃ d, PageOp.docId w0 (.edit bob 1 "T" "s" "x" none none) = some d ∧
      (PageOp.run env0 w0 (.edit bob 1 "T" "s" "x" none none)).2.triggers = w0.triggers ++
        [(if env0.GetRootParentID d ≠ 0 then env0.GetRootParentID d else d, false)]) ∧
    (∃ d, PageOp.docId w0 (.delete 1) = some d ∧
      (PageOp.run env0 w0 (.delete 1)).2.triggers = w0.triggers ++
        [(if env0.GetRootParentID d ≠ 0 then env0.GetRootParentID d else d, false)]) ∧
    (∃ d, PageOp.docId w0 (.reorder 1 (some 4) none) = some d ∧
      (PageOp.run envRoot w0 (.reorder 1 (some 4) none)).2.triggers = w0.triggers ++
        [(if envRoot.GetRootParentID d ≠ 0 then envRoot.GetRootParentID d else d, false)]) :=
  ⟨C5_one_trigger_on_success envRoot w0 _ (.create page2) (by decide),
   C5_one_trigger_on_success env0 w0 _ (.edit bob 1 "T" "s" "x" none none) (by decide),
   C5_one_trigger_on_success env0 w0 _ (.delete 1) (by decide),
   C5_one_trigger_on_success envRoot w0 _ (.reorder 1 (some 4) none) (by decide)⟩

/-! ## Lemmas on `DeletePage` -/

/-- What a committed `DeletePage` transaction has done: the page was found, its
editor links were cleared, then its row was removed. -/
theorem DeletePageTx_ok {env : Env} {db db1 : DB} {id : Nat}
    (h : DeletePageTx env db id = .ok db1) :
    ∃ p tx1, db.pages.find? (fun p => decide (p.ID = id)) = some p ∧
      db.ClearEditors false p.row = .ok tx1 ∧ tx1.Delete false p.row = .ok db1 := by
  unfold DeletePageTx at h
  cases hb : env.faults.begin with
  | true => simp [hb] at h
  | false =>
    simp only [hb, Bool.false_eq_true, if_false] at h
    cases hF : db.First env.faults.first id with
    | error e => cases e <;> simp [hF] at h
    | ok q =>
      obtain ⟨-, p, hp, rfl⟩ := First_ok hF
      simp only [hF] at h
      cases hc : env.faults.clear with
      | true => simp [hc, DB.ClearEditors] at h
      | false =>
        cases hd : env.faults.delete with
        | true => simp [hc, hd, DB.ClearEditors, DB.Delete] at h
        | false =>
          cases hm : env.faults.commit with
          | true => simp [hc, hd, hm, DB.ClearEditors, DB.Delete] at h
          | false =>
            refine ⟨p, _, hp, rfl, ?_⟩
            simp only [hc, hd, hm, DB.ClearEditors, DB.Delete, Bool.false_eq_true,
              if_false, Except.ok.injEq] at h
            simp only [DB.ClearEditors, DB.Delete, Bool.false_eq_true, if_false, h]

/-- The row a committed `DeletePage` transaction has fetched reads back. -/
theorem DeletePageTx_readable {env : Env} {db db1 : DB} {id : Nat} {p : Page}
    (hp : db.pages.find? (fun p => decide (p.ID = id)) = some p)
    (h : DeletePageTx env db id = .ok db1) : p.readable = true := by
  unfold DeletePageTx at h
  cases hb : env.faults.begin with
  | true => simp [hb] at h
  | false =>
    cases hF : db.First env.faults.first id with
    | error e => cases e <;> simp [hb, hF] at h
    | ok q => exact First_readable hF hp

/-- The errors `DeletePage` returns before its transaction has committed. -/
theorem DeletePageTx_error {env : Env} {db : DB} {id : Nat} {e : String}
    (h : DeletePageTx env db id = .error e) :
    e ∈ ["failed_to_start_transaction", "page_not_found", "failed_to_fetch_page",
      "failed_to_clear_page_associations", "failed_to_delete_page",
      "transaction_commit_failed"] := by
  unfold DeletePageTx at h
  split at h
  · cases h; simp
  · split at h
    · cases h; simp
    · cases h; simp
    · split at h
      · cases h; simp
      · split at h
        · cases h; simp
        · split at h
          · cases h; simp
          · cases h

/-- The result of `DeletePage` once its transaction has committed. -/
theorem DeletePage_committed {env : Env} {w : World} {id : Nat} {db1 : DB}
    (h : DeletePageTx env w.db id = .ok db1) :
    (DeletePage env w id).2.db = db1 ∧
    ((DeletePage env w id).1 = none ∨
      (DeletePage env w id).1 = some "failed_to_get_documentation_id" ∨
      (DeletePage env w id).1 = some "failed_to_update_write_build") := by
  unfold DeletePage
  simp only [h]
  cases hD : GetDocumentationIDOfPage env w id with
  | error e => exact ⟨rfl, Or.inr (Or.inl rfl)⟩
  | ok docId =>
    simp only
    rw [triggerBuild_eq]
    cases env.faults.trigger with
    | true => exact ⟨rfl, Or.inr (Or.inr rfl)⟩
    | false => exact ⟨rfl, Or.inl rfl⟩

/-- A successful `DeletePage` has committed its transaction. -/
theorem DeletePage_ok {env : Env} {w w1 : World} {id : Nat}
    (h : DeletePage env w id = (none, w1)) : DeletePageTx env w.db id = .ok w1.db := by
  cases hT : DeletePageTx env w.db id with
  | error e =>
    unfold DeletePage at h
    simp [hT] at h
  | ok db1 =>
    have := (DeletePage_committed hT).1
    rw [h] at this
    rw [← this]

/-! ## C6 -/

/-- C6, as the code has it: when `DeletePage` returns an error of a step up to
and including the commit (starting the transaction, fetching the page, clearing
the editor links, deleting the row, committing), the stored pages, the editor
links and the trigger calls are the same as before; the trigger is enqueued
after the commit, so with the error `failed_to_update_write_build` the
transaction has committed and its result is the store left. -/
theorem C6_DeletePage_rollback (env : Env) (w : World) (id : Nat) (e : String)
    (h : (DeletePage env w id).1 = some e) :
    (e ∈ ["failed_to_start_transaction", "page_not_found", "failed_to_fetch_page",
        "failed_to_clear_page_associations", "failed_to_delete_page",
        "transaction_commit_failed"] → (DeletePage env w id).2 = w) ∧
    (e = "failed_to_update_write_build" →
      DeletePageTx env w.db id = .ok (DeletePage env w id).2.db) := by
  cases hT : DeletePageTx env w.db id with
  | error e1 =>
    have hr : DeletePage env w id = (some e1, w) := by
      unfold DeletePage
      simp [hT]
    rw [hr] at h ⊢
    refine ⟨fun _ => rfl, ?_⟩
    intro he
    have hmem := DeletePageTx_error hT
    have : e1 = e := by simpa using h
    rw [this, he] at hmem
    exact absurd hmem (by decide)
  | ok db1 =>
    obtain ⟨hdb, hres⟩ := DeletePage_committed hT
    refine ⟨?_, fun _ => by rw [hdb]⟩
    intro he
    rw [h] at hres
    rcases hres with h1 | h1 | h1
    · cases h1
    · have : e = "failed_to_get_documentation_id" := by simpa using h1
      rw [this] at he
      exact absurd he (by decide)
    · have : e = "failed_to_update_write_build" := by simpa using h1
      rw [this] at he
      exact absurd he (by decide)

/-- C6 at the sample store: when the `First` of `DeletePage` fails nothing
changes, and when `AddBuildTrigger` fails the transaction has committed. -/
theorem C6_DeletePage_rollback_witness :
    ((DeletePage envFirstFails w0 1).1 = some "failed_to_fetch_page" ∧
      (DeletePage envFirstFails w0 1).2 = w0) ∧
    ((DeletePage envTriggerFails w0 1).1 = some "failed_to_update_write_build" ∧
      DeletePageTx envTriggerFails w0.db 1 = .ok (DeletePage envTriggerFails w0 1).2.db) :=
  ⟨⟨by decide, (C6_DeletePage_rollback envFirstFails w0 1 "failed_to_fetch_page"
      (by decide)).1 (by decide)⟩,
   ⟨by decide, (C6_DeletePage_rollback envTriggerFails w0 1
      "failed_to_update_write_build" (by decide)).2 rfl⟩⟩

/-- C6 fails as stated: with `AddBuildTrigger` failing, `DeletePage` on the
sample store returns an error and yet the page and its editor link are gone. -/
theorem C6_counterexample :
    (DeletePage envTriggerFails w0 1).1 = some "failed_to_update_write_build" ∧
    w0.db = ⟨[page1], [(1, alice)]⟩ ∧
    (DeletePage envTriggerFails w0 1).2.db = ⟨[], []⟩ ∧
    (DeletePage envTriggerFails w0 1).2.db ≠ w0.db := by
  decide

/-! ## C7 -/

/-- C7: after a successful `DeletePage` no row with the id is left and no editor
link refers to it; the links were cleared on a store that still held the row,
and only then the row was removed; the rows and the editor links of all other
pages are as before. -/
theorem C7_DeletePage_removes (env : Env) (w w1 : World) (id : Nat)
    (h : DeletePage env w id = (none, w1)) :
    (∀ p ∈ w1.db.pages, p.ID ≠ id) ∧
    w1.db.First false id = .error .ErrRecordNotFound ∧
    (∀ l ∈ w1.db.page_editors, l.1 ≠ id) ∧
    (∃ page tx1, w.db.First false id = .ok page ∧
      w.db.ClearEditors false page = .ok tx1 ∧
      tx1.pages = w.db.pages ∧ tx1.Editors id = [] ∧
      tx1.Delete false page = .ok w1.db) ∧
    w1.db.pages = w.db.pages.filter (fun p => decide (p.ID ≠ id)) ∧
    w1.db.page_editors = w.db.page_editors.filter (fun l => decide (l.1 ≠ id)) := by
  obtain ⟨p, tx1, hp, hc, hd⟩ := DeletePageTx_ok (DeletePage_ok h)
  have hid : p.row.ID = id := (find_ID hp).1
  simp only [DB.ClearEditors, Bool.false_eq_true, if_false, Except.ok.injEq, hid] at hc
  simp only [DB.Delete, Bool.false_eq_true, if_false, Except.ok.injEq, hid] at hd
  have hpages : w1.db.pages = w.db.pages.filter (fun p => decide (p.ID ≠ id)) := by
    rw [← hd, ← hc]
  have hlinks : w1.db.page_editors
      = w.db.page_editors.filter (fun l => decide (l.1 ≠ id)) := by
    rw [← hd, ← hc]
  have hgone : ∀ q ∈ w1.db.pages, q.ID ≠ id := by
    intro q hq
    rw [hpages] at hq
    simpa using (List.mem_filter.mp hq).2
  refine ⟨hgone, ?_, ?_, ⟨p.row, tx1,
    First_of_find hp (DeletePageTx_readable hp (DeletePage_ok h)), ?_, ?_, ?_, ?_⟩,
    hpages, hlinks⟩
  · unfold DB.First
    have : w1.db.pages.find? (fun p => decide (p.ID = id)) = none := by
      rw [List.find?_eq_none]
      intro q hq
      simpa using hgone q hq
    simp [this]
  · intro l hl
    rw [hlinks] at hl
    simpa using (List.mem_filter.mp hl).2
  · simp only [DB.ClearEditors, Bool.false_eq_true, if_false, hid, hc]
  · rw [← hc]
  · rw [← hc]
    simp [DB.Editors, List.filter_filter]
  · simp only [DB.Delete, Bool.false_eq_true, if_false, hid, hd]

/-- C7 at the sample store: `page1` is deleted. -/
theorem C7_DeletePage_removes_witness :
    (∀ p ∈ (DeletePage env0 w0 1).2.db.pages, p.ID ≠ 1) ∧
    (DeletePage env0 w0 1).2.db.First false 1 = .error .ErrRecordNotFound ∧
    (∀ l ∈ (DeletePage env0 w0 1).2.db.page_editors, l.1 ≠ 1) ∧
    (∃ page tx1, w0.db.First false 1 = .ok page ∧
      w0.db.ClearEditors false page = .ok tx1 ∧
      tx1.pages = w0.db.pages ∧ tx1.Editors 1 = [] ∧
      tx1.Delete false page = .ok (DeletePage env0 w0 1).2.db) ∧
    (DeletePage env0 w0 1).2.db.pages = w0.db.pages.filter (fun p => decide (p.ID ≠ 1)) ∧
    (DeletePage env0 w0 1).2.db.page_editors
      = w0.db.page_editors.filter (fun l => decide (l.1 ≠ 1)) :=
  C7_DeletePage_removes env0 w0 _ 1 (by decide)

/-! ## C8 -/

/-- The lookup of an id no row has. -/
theorem First_missing {db : DB} {id : Nat} (h : ∀ p ∈ db.pages, p.ID ≠ id) (f : Bool) :
    db.First f id = .error (if f then .ErrOther else .ErrRecordNotFound) := by
  have hn : db.pages.find? (fun p => decide (p.ID = id)) = none := by
    rw [List.find?_eq_none]
    intro q hq
    simpa using h q hq
  unfold DB.First
  cases f <;> simp [hn]

/-- C8: for an id no page has, `GetPage`, `EditPage`, `DeletePage`, `ReorderPage`
and `GetDocumentationIDOfPage` each fail, change neither the store nor the
trigger calls, and, the store answering the lookup, fail with `page_not_found`. -/
theorem C8_missing_page (env : Env) (w : World) (id : Nat) (user : User)
    (t sl c : String) (o g g2 o2 : Option Nat)
    (hmiss : ∀ p ∈ w.db.pages, p.ID ≠ id) :
    ((∃ e, GetPage env w id = .error e) ∧
      (∃ e, EditPage env w user id t sl c o g = (some e, w)) ∧
      (∃ e, DeletePage env w id = (some e, w)) ∧
      (∃ e, ReorderPage env w id g2 o2 = (some e, w)) ∧
      (∃ e, GetDocumentationIDOfPage env w id = .error e)) ∧
    (env.faults.begin = false ∧ env.faults.first = false ∧
        env.faults.docIdFirst = false →
      GetPage env w id = .error "page_not_found" ∧
      EditPage env w user id t sl c o g = (some "page_not_found", w) ∧
      DeletePage env w id = (some "page_not_found", w) ∧
      ReorderPage env w id g2 o2 = (some "page_not_found", w) ∧
      GetDocumentationIDOfPage env w id = .error "page_not_found") := by
  have hF := First_missing hmiss
  have hEdit : EditPage env w user id t sl c o g = (some "page_not_found", w) := by
    simp [EditPage, EditPageTx, DB.PreloadFirst, hF]
  constructor
  · refine ⟨?_, ⟨_, hEdit⟩, ?_, ?_, ?_⟩
    · cases hf : env.faults.first <;> simp [GetPage, DB.PreloadFirst, hF, hf]
    · cases hb : env.faults.begin <;> cases hf : env.faults.first <;>
        simp [DeletePage, DeletePageTx, hF, hb, hf]
    · cases hf : env.faults.first <;> simp [ReorderPage, hF, hf]
    · cases hf : env.faults.docIdFirst <;> simp [GetDocumentationIDOfPage, hF, hf]
  · rintro ⟨hb, hf, hd⟩
    refine ⟨?_, hEdit, ?_, ?_, ?_⟩
    · simp [GetPage, DB.PreloadFirst, hF, hf]
    · simp [DeletePage, DeletePageTx, hF, hb, hf]
    · simp [ReorderPage, hF, hf]
    · simp [GetDocumentationIDOfPage, hF, hd]

/-- C8 at the sample store: no page has id 5. -/
theorem C8_missing_page_witness :
    GetPage env0 w0 5 = .error "page_not_found" ∧
    EditPage env0 w0 bob 5 "T" "s" "x" none none = (some "page_not_found", w0) ∧
    DeletePage env0 w0 5 = (some "page_not_found", w0) ∧
    ReorderPage env0 w0 5 (some 1) (some 2) = (some "page_not_found", w0) ∧
    GetDocumentationIDOfPage env0 w0 5 = .error "page_not_found" :=
  (C8_missing_page env0 w0 5 bob "T" "s" "x" none none (some 1) (some 2)
    (by decide)).2 ⟨rfl, rfl, rfl⟩

/-! ## C9 -/

/-- The documentation-id lookup of a stored page fails only by a store fault or
on a row that does not read back. -/
theorem GetDocumentationIDOfPage_of_find {env : Env} {w : World} {id : Nat} {p : Page}
    (h : w.db.pages.find? (fun p => decide (p.ID = id)) = some p) :
    GetDocumentationIDOfPage env w id =
      if env.faults.docIdFirst = true ∨ p.readable = false then
        .error "failed_to_fetch_page"
      else .ok p.DocumentationID := by
  unfold GetDocumentationIDOfPage DB.First
  cases env.faults.docIdFirst <;> cases hr : p.readable <;> simp [h, hr, Page.row]

theorem find_of_First {db : DB} {id : Nat} {q : Page} (h : db.First false id = .ok q) :
    ∃ p, db.pages.find? (fun p => decide (p.ID = id)) = some p := by
  obtain ⟨-, p, hp, -⟩ := First_ok h
  exact ⟨p, hp⟩

/-- Once the mutation of a call is committed, the call runs its build-trigger
step on the committed store and returns what that step returns. -/
theorem run_committed {env : Env} {w : World} {op : PageOp} {db1 : DB}
    (h : op.committed env w = some db1) :
    op.run env w = afterCommit env w db1 (op.lookup env w db1) := by
  cases op with
  | create page =>
    simp only [PageOp.committed] at h
    cases hC : w.db.Create env.faults.create page with
    | error e => simp [hC] at h
    | ok pr =>
      obtain ⟨page1, db2⟩ := pr
      simp only [hC, Option.some.injEq] at h
      subst h
      simp only [PageOp.run, PageOp.lookup, CreatePage, hC, afterCommit]
      cases GetDocumentationIDOfPage env ⟨db2, w.triggers⟩ page1.ID <;> rfl
  | edit user id t sl c o g =>
    simp only [PageOp.committed] at h
    cases hT : EditPageTx env w.db user id t sl c o g with
    | error e => simp [hT] at h
    | ok db2 =>
      simp only [hT, Option.some.injEq] at h
      subst h
      simp only [PageOp.run, PageOp.lookup, EditPage, hT, afterCommit]
  | delete id =>
    simp only [PageOp.committed] at h
    cases hT : DeletePageTx env w.db id with
    | error e => simp [hT] at h
    | ok db2 =>
      simp only [hT, Option.some.injEq] at h
      subst h
      simp only [PageOp.run, PageOp.lookup, DeletePage, hT, afterCommit]
  | reorder id g o =>
    simp only [PageOp.committed] at h
    cases hF : w.db.First env.faults.first id with
    | error e => simp [hF] at h
    | ok page =>
      simp only [hF] at h
      cases hS : w.db.Save env.faults.save { page with PageGroupID := g, Order := o } with
      | error e => simp [hS] at h
      | ok db2 =>
        simp only [hS, Option.some.injEq] at h
        subst h
        cases page
        simp only [PageOp.run, PageOp.lookup, ReorderPage, hF, hS, afterCommit]

/-- The row the documentation-id lookup of a committed call is about lies in
the committed store, or, for `DeletePage`, is the row its transaction has
fetched. -/
theorem lookup_row {env : Env} {w : World} {op : PageOp} {db1 : DB}
    (h : op.committed env w = some db1) :
    ∃ p, (p ∈ db1.pages ∨ p.readable = true) ∧
      op.lookup env w db1 =
        if env.faults.docIdFirst = true ∨ p.readable = false then
          .error "failed_to_fetch_page"
        else .ok p.DocumentationID := by
  cases op with
  | create page =>
    simp only [PageOp.committed] at h
    cases hC : w.db.Create env.faults.create page with
    | error e => simp [hC] at h
    | ok pr =>
      obtain ⟨page1, db2⟩ := pr
      simp only [hC, Option.some.injEq] at h
      subst h
      obtain ⟨-, h2, h3, -⟩ := Create_ok hC
      have hfind : db2.pages.find? (fun p => decide (p.ID = page1.ID))
          = some page1.row := by
        rw [h2]
        exact find_append_new _ _ _ rfl h3
      refine ⟨page1.row, Or.inl (find_ID hfind).2, ?_⟩
      simp only [PageOp.lookup, hC]
      exact @GetDocumentationIDOfPage_of_find env ⟨db2, w.triggers⟩ _ _ hfind
  | edit user id t sl c o g =>
    simp only [PageOp.committed] at h
    cases hT : EditPageTx env w.db user id t sl c o g with
    | error e => simp [hT] at h
    | ok db2 =>
      simp only [hT, Option.some.injEq] at h
      subst h
      obtain ⟨p0, hp0, -⟩ := EditPageTx_ok hT
      have hfind := find_after_EditPageTx hp0 hT
      refine ⟨_, Or.inl (find_ID hfind).2, ?_⟩
      simp only [PageOp.lookup]
      exact @GetDocumentationIDOfPage_of_find env ⟨db2, w.triggers⟩ _ _ hfind
  | delete id =>
    simp only [PageOp.committed] at h
    cases hT : DeletePageTx env w.db id with
    | error e => simp [hT] at h
    | ok db2 =>
      simp only [hT, Option.some.injEq] at h
      subst h
      obtain ⟨p0, -, hp0, -, -⟩ := DeletePageTx_ok hT
      refine ⟨p0, Or.inr (DeletePageTx_readable hp0 hT), ?_⟩
      simp only [PageOp.lookup]
      exact GetDocumentationIDOfPage_of_find hp0
  | reorder id g o =>
    simp only [PageOp.committed] at h
    cases hF : w.db.First env.faults.first id with
    | error e => simp [hF] at h
    | ok page =>
      simp only [hF] at h
      cases hS : w.db.Save env.faults.save { page with PageGroupID := g, Order := o } with
      | error e => simp [hS] at h
      | ok db2 =>
        simp only [hS, Option.some.injEq] at h
        subst h
        obtain ⟨-, p0, hp0, rfl⟩ := First_ok hF
        have hid : p0.ID = id := (find_ID hp0).1
        have hS2 := find_after_Save hS
        simp only [Page.row] at hS2
        subst hid
        refine ⟨_, Or.inl (find_ID hS2).2, ?_⟩
        simp only [PageOp.lookup]
        exact @GetDocumentationIDOfPage_of_find env ⟨db2, w.triggers⟩ _ _ hS2

/-- C9, as the code has it: once `CreatePage`, `EditPage` or `DeletePage` (or
`ReorderPage`) has committed its mutation, the committed store is the store
left, and the call returns success when the documentation-id lookup and
`AddBuildTrigger` both succeed, `failed_to_get_documentation_id` when the
lookup fails and `failed_to_update_write_build` when `AddBuildTrigger` fails.
The lookup fails when its store call fails, and otherwise only on a row that
does not read back. -/
theorem C9_result_after_commit (env : Env) (w : World) (op : PageOp) (db1 : DB)
    (h : op.committed env w = some db1) :
    (op.run env w).2.db = db1 ∧
    (env.faults.docIdFirst = false → (∀ p ∈ db1.pages, p.readable = true) →
      env.faults.trigger = false → (op.run env w).1 = none) ∧
    (env.faults.docIdFirst = true →
      (op.run env w).1 = some "failed_to_get_documentation_id") ∧
    (env.faults.docIdFirst = false → (∀ p ∈ db1.pages, p.readable = true) →
      env.faults.trigger = true →
      (op.run env w).1 = some "failed_to_update_write_build") ∧
    (∀ d, op.lookup env w db1 = .ok d → env.faults.trigger = false →
      (op.run env w).1 = none) ∧
    (∀ e, op.lookup env w db1 = .error e →
      (op.run env w).1 = some "failed_to_get_documentation_id") ∧
    (∀ d, op.lookup env w db1 = .ok d → env.faults.trigger = true →
      (op.run env w).1 = some "failed_to_update_write_build") := by
  have hr := run_committed h
  obtain ⟨p, hp, hl⟩ := lookup_row h
  have hread : (∀ q ∈ db1.pages, q.readable = true) → p.readable = true := by
    intro hall
    rcases hp with hp | hp
    · exact hall p hp
    · exact hp
  rw [hr]
  refine ⟨?_, ?_, ?_, ?_, ?_, ?_, ?_⟩
  · cases op.lookup env w db1 <;> simp [afterCommit, triggerBuild_eq]
  · intro hf hall ht
    rw [hl]
    simp [afterCommit, triggerBuild_eq, hf, hread hall, ht]
  · intro hf
    rw [hl]
    simp [afterCommit, hf]
  · intro hf hall ht
    rw [hl]
    simp [afterCommit, triggerBuild_eq, hf, hread hall, ht]
  · intro d hd ht
    rw [hd]
    simp [afterCommit, triggerBuild_eq, ht]
  · intro e he
    rw [he]
    simp [afterCommit]
  · intro d hd ht
    rw [hd]
    simp [afterCommit, triggerBuild_eq, ht]

/-- C9 at the sample store: an edit with nothing failing succeeds, and a
delete with `AddBuildTrigger` failing is committed and returns its error. -/
theorem C9_result_after_commit_witness :
    (PageOp.run env0 w0 (.edit bob 1 "T" "s" "x" none none)).1 = none ∧
    (PageOp.run envTriggerFails w0 (.delete 1)).2.db = ⟨[], []⟩ ∧
    (PageOp.run envTriggerFails w0 (.delete 1)).1 = some "failed_to_update_write_build" :=
  ⟨(C9_result_after_commit env0 w0 (.edit bob 1 "T" "s" "x" none none)
      ⟨[⟨1, "T", "s", "x", 7, none, some 0, 1, some 2, []⟩], [(1, alice), (1, bob)]⟩
      rfl).2.1 rfl (by decide) rfl,
   (C9_result_after_commit envTriggerFails w0 (.delete 1) ⟨[], []⟩ rfl).1,
   (C9_result_after_commit envTriggerFails w0 (.delete 1) ⟨[], []⟩ rfl).2.2.2.1 rfl
      (by decide) rfl⟩

/-- C9 fails as stated: with `AddBuildTrigger` failing, the transaction of
`EditPage` on the sample store commits the edited page and `EditPage` returns
an error all the same. -/
theorem C9_counterexample :
    EditPageTx envTriggerFails w0.db bob 1 "T" "s" "x" none none =
      .ok ⟨[⟨1, "T", "s", "x", 7, none, some 0, 1, some 2, []⟩], [(1, alice), (1, bob)]⟩ ∧
    EditPage envTriggerFails w0 bob 1 "T" "s" "x" none none =
      (some "failed_to_update_write_build",
        ⟨⟨[⟨1, "T", "s", "x", 7, none, some 0, 1, some 2, []⟩], [(1, alice), (1, bob)]⟩,
          [(7, false)]⟩) :=
  ⟨rfl, by decide⟩

/-! ## C10 -/

/-- C10: when the request path resolves to a documentation, `GetRsPress` serves
`index.html` directly under the build-output directory if the file at the
computed path does not exist, and the computed path itself if it exists. -/
theorem C10_GetRsPress_fallback (resolve : String → Except String (String × String))
    (stat : String → StatResult) (urlPath docPath baseURL : String)
    (h : resolve urlPath = .ok (docPath, baseURL)) :
    (stat (Join docPath (TrimPrefix urlPath baseURL)) = .notExist →
      GetRsPress resolve stat urlPath = .ServeFile (Join docPath "index.html")) ∧
    (stat (Join docPath (TrimPrefix urlPath baseURL)) = .found →
      GetRsPress resolve stat urlPath =
        .ServeFile (Join docPath (TrimPrefix urlPath baseURL))) := by
  unfold GetRsPress
  simp only [h]
  constructor
  · intro hs
    simp [hs]
  · intro hs
    simp [hs]

/-- C10 at the sample site: a missing file falls back to the index document, an
existing file is served. -/
theorem C10_GetRsPress_fallback_witness :
    GetRsPress resolve0 stat0 "/docs/guide/b.html" = .ServeFile "/out/doc1/index.html" ∧
    GetRsPress resolve0 stat0 "/docs/guide/a.html" = .ServeFile "/out/doc1/guide/a.html" :=
  ⟨(C10_GetRsPress_fallback resolve0 stat0 "/docs/guide/b.html" "/out/doc1" "/docs/"
      rfl).1 (by decide),
   (C10_GetRsPress_fallback resolve0 stat0 "/docs/guide/a.html" "/out/doc1" "/docs/"
      rfl).2 (by decide)⟩

/-! ## C12 -/

/-- C12: when `service.GetRsPress` returns an error, the handler answers with a
temporary redirect (307) to `/admin/`; it hands no file to `http.ServeFile` and
writes no other answer. -/
theorem C12_GetRsPress_redirect (resolve : String → Except String (String × String))
    (stat : String → StatResult) (urlPath e : String)
    (h : resolve urlPath = .error e) :
    GetRsPress resolve stat urlPath = .Redirect "/admin/" 307 ∧
    ∀ path, GetRsPress resolve stat urlPath ≠ .ServeFile path := by
  unfold GetRsPress
  simp [h]

/-- C12 at the sample site: a path outside `/docs/` is redirected. -/
theorem C12_GetRsPress_redirect_witness :
    GetRsPress resolve0 stat0 "/other/a.html" = .Redirect "/admin/" 307 ∧
    ∀ path, GetRsPress resolve0 stat0 "/other/a.html" ≠ .ServeFile path :=
  C12_GetRsPress_redirect resolve0 stat0 "/other/a.html" "not_found" rfl

/-! ## Lemmas on `filepath.Clean` and `filepath.Join` -/

theorem splitSlash_eq_cons (l : List Char) : ∃ seg rest, splitSlash l = seg :: rest := by
  induction l with
  | nil => exact ⟨[], [], rfl⟩
  | cons c cs ih =>
    obtain ⟨seg, rest, h⟩ := ih
    by_cases hc : c = '/'
    · exact ⟨[], seg :: rest, by simp [splitSlash, h, hc]⟩
    · exact ⟨c :: seg, rest, by simp [splitSlash, h, hc]⟩

/-- Splitting a path joined with `/` splits both parts. -/
theorem splitSlash_append (p r : List Char) :
    splitSlash (p ++ '/' :: r) = splitSlash p ++ splitSlash r := by
  induction p with
  | nil =>
    obtain ⟨seg, rest, h⟩ := splitSlash_eq_cons r
    simp [splitSlash, h]
  | cons c p ih =>
    obtain ⟨seg, rest, h⟩ := splitSlash_eq_cons p
    by_cases hc : c = '/'
    · simp [splitSlash, ih, h, hc]
    · simp [splitSlash, ih, h, hc]

/-- Components without `..` are only skipped or pushed by `filepath.Clean`. -/
theorem foldl_cleanStep_push (rooted : Bool) (ys : List (List Char))
    (out : List (List Char)) (h : ['.', '.'] ∉ ys) :
    ys.foldl (cleanStep rooted) out =
      (ys.filter keptSeg).reverse ++ out := by
  induction ys generalizing out with
  | nil => rfl
  | cons y ys ih =>
    have hy : y ≠ ['.', '.'] := fun hc => h (by simp [hc])
    have hys : ['.', '.'] ∉ ys := fun hc => h (List.mem_cons_of_mem _ hc)
    rw [List.foldl_cons, ih _ hys]
    by_cases hk : y = [] ∨ y = ['.']
    · have hf : ¬ (keptSeg y = true) := by
        unfold keptSeg
        rw [decide_eq_true_iff]
        rintro ⟨h1, h2⟩
        rcases hk with hk | hk
        · exact h1 hk
        · exact h2 hk
      have hc : cleanStep rooted out y = out := by simp [cleanStep, hk]
      rw [hc, List.filter_cons_of_neg hf]
    · have hf : keptSeg y = true := by
        unfold keptSeg
        rw [decide_eq_true_iff]
        exact ⟨fun hc => hk (Or.inl hc), fun hc => hk (Or.inr hc)⟩
      have hc : cleanStep rooted out y = y :: out := by simp [cleanStep, hk, hy]
      rw [hc, List.filter_cons_of_pos hf]
      simp

theorem intercalate_append (sep : List Char) (a b : List (List Char))
    (ha : a ≠ []) (hb : b ≠ []) :
    List.intercalate sep (a ++ b) =
      List.intercalate sep a ++ sep ++ List.intercalate sep b := by
  induction a with
  | nil => exact absurd rfl ha
  | cons x a ih =>
    cases a with
    | nil =>
      cases b with
      | nil => exact absurd rfl hb
      | cons y b => simp [List.intercalate]
    | cons x2 a =>
      have := ih (by simp)
      simp only [List.cons_append] at this ⊢
      have e1 : ∀ t : List (List Char), List.intercalate sep (x :: x2 :: t) =
          x ++ sep ++ List.intercalate sep (x2 :: t) := by
        intro t
        simp [List.intercalate]
      rw [e1, e1, this]
      simp [List.append_assoc]

/-- The components of a joined path: those of the directory, then the
components of the rest, when the rest has no `..` component. -/
theorem cleanSegs_join (p r : List Char) (hp : p ≠ [])
    (h : ['.', '.'] ∉ splitSlash r) :
    cleanSegs (p ++ '/' :: r) =
      cleanSegs p ++ (splitSlash r).filter keptSeg := by
  have hhead : (p ++ '/' :: r).head? = p.head? := by
    cases p with
    | nil => exact absurd rfl hp
    | cons c p => rfl
  unfold cleanSegs
  rw [hhead, splitSlash_append, List.foldl_append, foldl_cleanStep_push _ _ _ h]
  simp

/-- `filepath.Clean` of a non-empty path, by its kept components. -/
theorem Clean_eq (path : String) (h : path.data ≠ []) :
    Clean path =
      if path.data.head? = some '/' then
        String.mk ('/' :: List.intercalate ['/'] (cleanSegs path.data))
      else if List.intercalate ['/'] (cleanSegs path.data) = [] then "."
      else String.mk (List.intercalate ['/'] (cleanSegs path.data)) := by
  unfold Clean cleanSegs
  simp only [h, if_false]
  by_cases hr : path.data.head? = some '/' <;> simp [hr]

/-- A path made of the components of a directory and then further components
lies under the directory. -/
theorem liesUnder_segs (pre : List Char) (a b : List (List Char))
    (ha : a ≠ [] ∨ pre.getLast? = some '/') :
    liesUnder (String.mk (pre ++ List.intercalate ['/'] a))
      (String.mk (pre ++ List.intercalate ['/'] (a ++ b))) = true := by
  unfold liesUnder
  by_cases hb : b = []
  · subst hb
    simp
  · by_cases ha2 : a = []
    · subst ha2
      have hl : pre.getLast? = some '/' := by
        rcases ha with ha | ha
        · exact absurd rfl ha
        · exact ha
      have h3 : pre.isPrefixOf (pre ++ List.intercalate ['/'] b) = true :=
        List.isPrefixOf_iff_prefix.mpr (List.prefix_append _ _)
      simp [List.intercalate, hl, h3]
    · have h2 : (pre ++ List.intercalate ['/'] a ++ ['/']).isPrefixOf
          (pre ++ List.intercalate ['/'] (a ++ b)) = true := by
        rw [List.isPrefixOf_iff_prefix, intercalate_append _ _ _ ha2 hb]
        exact ⟨List.intercalate ['/'] b, by simp [List.append_assoc]⟩
      show (_ || (pre ++ List.intercalate ['/'] a ++ ['/']).isPrefixOf
          (pre ++ List.intercalate ['/'] (a ++ b)) || _) = true
      rw [h2]
      simp

/-- Joining a rest without `..` component to a directory stays under the
cleaned directory. -/
theorem Join_liesUnder (docPath rest : String) (hd : docPath ≠ "")
    (hdot : Clean docPath ≠ ".") (hr : ['.', '.'] ∉ splitSlash rest.data) :
    liesUnder (Clean docPath) (Join docPath rest) = true := by
  have hp : docPath.data ≠ [] := by
    intro hc
    apply hd
    cases docPath
    simp only at hc
    subst hc
    rfl
  have hj : (String.mk (docPath.data ++ '/' :: rest.data)).data ≠ [] := by
    show docPath.data ++ '/' :: rest.data ≠ []
    simp
  have hhead : (docPath.data ++ '/' :: rest.data).head? = docPath.data.head? := by
    cases hdat : docPath.data with
    | nil => exact absurd hdat hp
    | cons c p => rfl
  unfold Join
  rw [if_pos hd, Clean_eq _ hj]
  show liesUnder (Clean docPath)
    (if (docPath.data ++ '/' :: rest.data).head? = some '/' then
        String.mk ('/' :: List.intercalate ['/'] (cleanSegs (docPath.data ++ '/' :: rest.data)))
      else if List.intercalate ['/'] (cleanSegs (docPath.data ++ '/' :: rest.data)) = []
        then "."
      else String.mk (List.intercalate ['/']
        (cleanSegs (docPath.data ++ '/' :: rest.data)))) = true
  rw [hhead, cleanSegs_join _ _ hp hr]
  rw [Clean_eq _ hp] at hdot ⊢
  by_cases hroot : docPath.data.head? = some '/'
  · rw [if_pos hroot, if_pos hroot]
    exact liesUnder_segs ['/'] _ _ (Or.inr rfl)
  · rw [if_neg hroot] at hdot
    rw [if_neg hroot, if_neg hroot]
    have hI : List.intercalate ['/'] (cleanSegs docPath.data) ≠ [] := by
      intro hc
      rw [if_pos hc] at hdot
      exact hdot rfl
    have hA : cleanSegs docPath.data ≠ [] := by
      intro hc
      apply hI
      rw [hc]
      rfl
    rw [if_neg hI]
    have hAB : List.intercalate ['/']
        (cleanSegs docPath.data ++ (splitSlash rest.data).filter keptSeg) ≠ [] := by
      by_cases hb : (splitSlash rest.data).filter keptSeg = []
      · rw [hb, List.append_nil]
        exact hI
      · rw [intercalate_append _ _ _ hA hb]
        simp
    rw [if_neg hAB]
    exact liesUnder_segs [] _ _ (Or.inl hA)

/-! ## C11 -/

/-- C11, as the code has it: when the matched base URL leads the request path,
the computed file path is the build-output directory joined with the request
path after that lead, and it is the path handed to `os.Stat` and, if that file
exists, to `http.ServeFile`; it lies under the (cleaned) build-output directory
whenever the rest of the request path has no `..` component. -/
theorem C11_GetRsPress_path (resolve : String → Except String (String × String))
    (stat : String → StatResult) (urlPath docPath baseURL : String)
    (h : resolve urlPath = .ok (docPath, baseURL))
    (hpre : baseURL.data <+: urlPath.data) :
    TrimPrefix urlPath baseURL = String.mk (urlPath.data.drop baseURL.data.length) ∧
    GetRsPress resolve stat urlPath = .ServeFile
      (if stat (Join docPath (String.mk (urlPath.data.drop baseURL.data.length)))
          = .notExist then Join docPath "index.html"
        else Join docPath (String.mk (urlPath.data.drop baseURL.data.length))) ∧
    (docPath ≠ "" → Clean docPath ≠ "." →
      ['.', '.'] ∉ splitSlash (urlPath.data.drop baseURL.data.length) →
      liesUnder (Clean docPath)
        (Join docPath (String.mk (urlPath.data.drop baseURL.data.length))) = true) := by
  have ht : TrimPrefix urlPath baseURL
      = String.mk (urlPath.data.drop baseURL.data.length) := by
    unfold TrimPrefix
    rw [if_pos (List.isPrefixOf_iff_prefix.mpr hpre)]
  refine ⟨ht, ?_, ?_⟩
  · unfold GetRsPress
    simp only [h, ht]
  · intro hd hdot hr
    exact Join_liesUnder docPath _ hd hdot hr

/-- C11 at the sample site: the path computed for `/docs/guide/a.html` is
`/out/doc1/guide/a.html`, under `/out/doc1`. -/
theorem C11_GetRsPress_path_witness :
    TrimPrefix "/docs/guide/a.html" "/docs/" = "guide/a.html" ∧
    GetRsPress resolve0 stat0 "/docs/guide/a.html" = .ServeFile "/out/doc1/guide/a.html" ∧
    liesUnder "/out/doc1" "/out/doc1/guide/a.html" = true :=
  ⟨(C11_GetRsPress_path resolve0 stat0 "/docs/guide/a.html" "/out/doc1" "/docs/" rfl
      (List.isPrefixOf_iff_prefix.mp (by decide))).1,
   (C11_GetRsPress_path resolve0 stat0 "/docs/guide/a.html" "/out/doc1" "/docs/" rfl
      (List.isPrefixOf_iff_prefix.mp (by decide))).2.1,
   (C11_GetRsPress_path resolve0 stat0 "/docs/guide/a.html" "/out/doc1" "/docs/" rfl
      (List.isPrefixOf_iff_prefix.mp (by decide))).2.2 (by decide) (by decide) (by decide)⟩

/-- C11 fails as stated: the base URL `/docs/` leads the request path
`/docs/../../etc/passwd`, and the path computed for it is `/etc/passwd`, which
is not under the build-output directory `/out/doc1`. -/
theorem C11_counterexample :
    resolve0 "/docs/../../etc/passwd" = .ok ("/out/doc1", "/docs/") ∧
    "/docs/".data.isPrefixOf "/docs/../../etc/passwd".data = true ∧
    Join "/out/doc1" (TrimPrefix "/docs/../../etc/passwd" "/docs/") = "/etc/passwd" ∧
    liesUnder "/out/doc1" "/etc/passwd" = false ∧
    GetRsPress resolve0 (fun _ => .found) "/docs/../../etc/passwd"
      = .ServeFile "/etc/passwd" :=
  ⟨rfl, by decide, by decide, by decide, by decide⟩

/-! ## C13 -/

/-- What a handler answers: nothing (the answer of `ValidateRequest` stands), an
error envelope with a code other than 200, or its success envelope. -/
theorem handler_answer (ep : Endpoint) (svc : Services) (r : HTTPRequest)
    (resp : JSONResponse) (h : (ep.handler svc r).answer = some resp)
    (hc : resp.code = 200) :
    ∃ message id idFields, resp.body = [("status", "success"), ("message", message)] ++ idFields ∧
      ((ep = .CreateDocumentationVersion ∨ ep = .BulkReorderPageOrPageGroup) ∧ idFields = [] ∨
        (ep ≠ .CreateDocumentationVersion ∧ ep ≠ .BulkReorderPageOrPageGroup) ∧
          idFields = [("id", id)]) := by
  obtain ⟨tok, body⟩ := r
  cases ep <;>
    simp only [Endpoint.handler, handlers.CreateDocumentation, handlers.EditDocumentation,
      handlers.DeleteDocumentation, handlers.CreateDocumentationVersion,
      handlers.CreatePage, handlers.EditPage, handlers.DeletePage,
      handlers.CreatePageGroup, handlers.EditPageGroup, handlers.DeletePageGroup,
      handlers.BulkReorderPageOrPageGroup] at h <;>
    (repeat' split at h) <;>
    simp_all [errorEnvelope] <;>
    (subst h; simp_all)

/-- C13, as the code has it: the envelope of a successful answer (code 200) of
every mutation handler holds `status` and `message`; it also holds `id` for the
create, edit and delete handlers of documentation, page and page group, and
holds no `id` for `CreateDocumentationVersion` and
`BulkReorderPageOrPageGroup`. -/
theorem C13_success_envelope (ep : Endpoint) (svc : Services) (r : HTTPRequest)
    (resp : JSONResponse) (h : (ep.handler svc r).answer = some resp)
    (hc : resp.code = 200) :
    "status" ∈ resp.keys ∧ "message" ∈ resp.keys ∧
    ("id" ∈ resp.keys ↔
      ep ≠ .CreateDocumentationVersion ∧ ep ≠ .BulkReorderPageOrPageGroup) := by
  obtain ⟨message, id, idFields, hb, hid⟩ := handler_answer ep svc r resp h hc
  unfold JSONResponse.keys
  rw [hb]
  rcases hid with ⟨hep, rfl⟩ | ⟨hep, rfl⟩
  · refine ⟨by simp, by simp, ?_⟩
    constructor
    · intro hmem
      simp at hmem
    · rintro ⟨h1, h2⟩
      rcases hep with hep | hep
      · exact absurd hep h1
      · exact absurd hep h2
  · exact ⟨by simp, by simp, by simp [hep]⟩

/-- C13 at the sample request: the answer of the `EditPage` handler holds the
three keys, the answer of the version handler holds two. -/
theorem C13_success_envelope_witness :
    ("status" ∈ JSONResponse.keys ⟨200, [("status", "success"),
        ("message", "page_updated"), ("id", "1")]⟩ ∧
      "message" ∈ JSONResponse.keys ⟨200, [("status", "success"),
        ("message", "page_updated"), ("id", "1")]⟩ ∧
      ("id" ∈ JSONResponse.keys ⟨200, [("status", "success"),
          ("message", "page_updated"), ("id", "1")]⟩ ↔
        Endpoint.EditPage ≠ .CreateDocumentationVersion ∧
          Endpoint.EditPage ≠ .BulkReorderPageOrPageGroup)) :=
  C13_success_envelope .EditPage svc0 ⟨some "tok-bob", some body0⟩ _ (by decide) rfl

/-- C13 fails as stated: the successful answers of `BulkReorderPageOrPageGroup`
and of `CreateDocumentationVersion` hold `status` and `message` and no `id`. -/
theorem C13_counterexample :
    (handlers.BulkReorderPageOrPageGroup svc0 ⟨some "tok-bob", some body0⟩).answer =
      some ⟨200, [("status", "success"), ("message", "pages_and_page_groups_reordered")]⟩ ∧
    (handlers.CreateDocumentationVersion svc0 ⟨some "tok-bob", some body0⟩).answer =
      some ⟨200, [("status", "success"), ("message", "version_created")]⟩ ∧
    "id" ∉ JSONResponse.keys
      ⟨200, [("status", "success"), ("message", "pages_and_page_groups_reordered")]⟩ ∧
    "id" ∉ JSONResponse.keys ⟨200, [("status", "success"), ("message", "version_created")]⟩ := by
  decide

/-! ## C14 -/

/-- C14, as the code has it: the create and edit handlers (of documentation,
page and page group) obtain the acting user from the bearer token before they
call the service: when the token is missing or rejected they make no service
call and answer 401, unless `ValidateRequest` has refused the request before.
The delete, version and bulk-reorder handlers read no token: what they do does
not depend on the token or on the authentication collaborator, and they call
the service for every request `ValidateRequest` accepts. -/
theorem C14_token_before_service (ep : Endpoint) (svc : Services) (r : HTTPRequest)
    (hbad : r.token = none ∨ ∃ t, r.token = some t ∧ svc.GetUserFromToken t = none) :
    (ep.readsToken = true →
      (ep.handler svc r).calls = [] ∧
      (((ep.handler svc r).answer = none ∧ r.body = none) ∨
        ∃ m, (ep.handler svc r).answer = some (errorEnvelope 401 m))) ∧
    (ep.readsToken = false →
      (∀ tok auth, ep.handler ⟨auth, svc.call⟩ ⟨tok, r.body⟩ = ep.handler svc r) ∧
      (r.body ≠ none → ∃ c, (ep.handler svc r).calls = [c])) := by
  obtain ⟨tok, body⟩ := r
  constructor
  · intro hr
    rcases hbad with hbad | ⟨t, ht, hu⟩
    · simp only at hbad
      subst hbad
      cases ep <;> simp [Endpoint.readsToken] at hr <;> cases body <;>
        simp [Endpoint.handler, handlers.CreateDocumentation, handlers.EditDocumentation,
          handlers.CreatePage, handlers.EditPage, handlers.CreatePageGroup,
          handlers.EditPageGroup]
    · simp only at ht
      subst ht
      cases ep <;> simp [Endpoint.readsToken] at hr <;> cases body <;>
        simp [Endpoint.handler, handlers.CreateDocumentation, handlers.EditDocumentation,
          handlers.CreatePage, handlers.EditPage, handlers.CreatePageGroup,
          handlers.EditPageGroup, hu]
  · intro hr
    constructor
    · intro tok2 auth
      cases ep <;> simp [Endpoint.readsToken] at hr <;> rfl
    · intro hb
      cases body with
      | none => exact absurd rfl hb
      | some req =>
        cases ep <;> simp [Endpoint.readsToken] at hr <;>
          simp only [Endpoint.handler, handlers.DeleteDocumentation,
            handlers.CreateDocumentationVersion, handlers.DeletePage,
            handlers.DeletePageGroup, handlers.BulkReorderPageOrPageGroup] <;>
          (repeat' split) <;> simp

/-- C14 at the sample request: without a token the `EditPage` handler calls
nothing and answers 401, and the `DeletePage` handler does the same with and
without a token and calls the service. -/
theorem C14_token_before_service_witness :
    ((handlers.EditPage svc0 ⟨none, some body0⟩).calls = [] ∧
      (((handlers.EditPage svc0 ⟨none, some body0⟩).answer = none ∧
          (some body0 : Option Body) = none) ∨
        ∃ m, (handlers.EditPage svc0 ⟨none, some body0⟩).answer
          = some (errorEnvelope 401 m))) ∧
    ((∀ tok auth, handlers.DeletePage ⟨auth, svc0.call⟩ ⟨tok, some body0⟩
        = handlers.DeletePage svc0 ⟨none, some body0⟩) ∧
      ∃ c, (handlers.DeletePage svc0 ⟨none, some body0⟩).calls = [c]) :=
  ⟨(C14_token_before_service .EditPage svc0 ⟨none, some body0⟩ (Or.inl rfl)).1 rfl,
   ⟨((C14_token_before_service .DeletePage svc0 ⟨none, some body0⟩ (Or.inl rfl)).2 rfl).1,
    ((C14_token_before_service .DeletePage svc0 ⟨none, some body0⟩ (Or.inl rfl)).2 rfl).2
      (by decide)⟩⟩

/-- C14 fails as stated: for a request without a token, and for one whose token
the authentication collaborator rejects, the `DeletePage` handler calls the
service operation `DeletePage` and answers with success. -/
theorem C14_counterexample :
    handlers.DeletePage svc0 ⟨none, some body0⟩ =
      ⟨[.DeletePage 1], some ⟨200, [("status", "success"), ("message", "page_deleted"),
        ("id", "1")]⟩⟩ ∧
    svc0.GetUserFromToken "tok-eve" = none ∧
    handlers.DeletePage svc0 ⟨some "tok-eve", some body0⟩ =
      ⟨[.DeletePage 1], some ⟨200, [("status", "success"), ("message", "page_deleted"),
        ("id", "1")]⟩⟩ := by
  decide

/-! ## Lemmas on the order and the page group -/

theorem editedPage_Order (page : Page) (user : User) (t sl c : String)
    (o g : Option Nat) :
    (editedPage page user t sl c o g).Order =
      match o with
      | some x => some x
      | none => page.Order := by
  unfold editedPage
  cases o <;> cases g <;> by_cases hc : c = "" <;> simp [hc]

theorem editedPage_PageGroupID (page : Page) (user : User) (t sl c : String)
    (o g : Option Nat) :
    (editedPage page user t sl c o g).PageGroupID =
      match g with
      | some x => some x
      | none => page.PageGroupID := by
  unfold editedPage
  cases o <;> cases g <;> by_cases hc : c = "" <;> simp [hc]

/-- With a working store the transaction of `EditPage` on a stored page commits. -/
theorem EditPageTx_works {env : Env} {db : DB} {id : Nat} {p : Page}
    (hw : env.faults = Faults.none) (hp : db.First false id = .ok p) (user : User)
    (t sl c : String) (o g : Option Nat) :
    ∃ db1, EditPageTx env db user id t sl c o g = .ok db1 := by
  unfold EditPageTx DB.PreloadFirst DB.Save
  simp [hw, Faults.none, hp]

/-- The edited page reads back when the loaded page does and the order, the
page group and the id of the user are below 2^63. -/
theorem editedPage_readable (page : Page) (user : User) (t sl c : String)
    (o g : Option Nat) (hp : page.readable = true) (ho : fitsInt64Opt o = true)
    (hg : fitsInt64Opt g = true) (hu : fitsInt64 user.ID = true) :
    (editedPage page user t sl c o g).readable = true := by
  unfold Page.readable at hp ⊢
  simp only [Bool.and_eq_true] at hp ⊢
  obtain ⟨⟨⟨⟨⟨h1, h2⟩, h3⟩, h4⟩, h5⟩, h6⟩ := hp
  rw [editedPage_ID, editedPage_DocumentationID, editedPage_AuthorID,
    editedPage_LastEditorID, editedPage_Order, editedPage_PageGroupID]
  refine ⟨⟨⟨⟨⟨h1, h2⟩, ?_⟩, ?_⟩, h5⟩, hu⟩
  · cases g with
    | none => exact h3
    | some x => exact hg
  · cases o with
    | none => exact h4
    | some x => exact ho

/-- With a working store, `EditPage` on a stored page succeeds for every order
value below 2^63 (the page group given and the id of the user being below 2^63
too), whatever the orders of the other pages, and the stored order is then
exactly that value. -/
theorem EditPage_order_stored (env : Env) (w : World) (user : User) (id : Nat)
    (t sl c : String) (g : Option Nat) (p : Page) (o : Nat)
    (hw : env.faults = Faults.none) (hp : w.db.First false id = .ok p)
    (ho : o < 9223372036854775808) (hg : fitsInt64Opt g = true)
    (hu : fitsInt64 user.ID = true) :
    ∃ w1 p1, EditPage env w user id t sl c (some o) g = (none, w1) ∧
      w1.db.First false id = .ok p1 ∧ p1.Order = some o := by
  obtain ⟨db1, hT⟩ := EditPageTx_works hw hp user t sl c (some o) g
  obtain ⟨-, p0, hp0, -⟩ := First_ok hp
  have hfind := find_after_EditPageTx hp0 hT
  have hread : (editedPage (loaded w.db p0 id) user t sl c (some o) g).row.readable
      = true := by
    rw [readable_row]
    have hr0 : p0.readable = true := First_readable hp hp0
    exact editedPage_readable _ _ _ _ _ _ _
      (show (loaded w.db p0 id).readable = true from hr0)
      (by simpa [fitsInt64Opt, fitsInt64] using ho) hg hu
  have hD : GetDocumentationIDOfPage env ⟨db1, w.triggers⟩ id =
      .ok (editedPage (loaded w.db p0 id) user t sl c (some o) g).row.DocumentationID := by
    rw [@GetDocumentationIDOfPage_of_find env ⟨db1, w.triggers⟩ _ _ hfind]
    simp [hw, Faults.none, hread]
  have hE : EditPage env w user id t sl c (some o) g =
      triggerBuild env ⟨db1, w.triggers⟩
        (editedPage (loaded w.db p0 id) user t sl c (some o) g).row.DocumentationID := by
    unfold EditPage
    simp only [hT, hD]
  rw [triggerBuild_eq] at hE
  simp only [hw, Faults.none, Bool.false_eq_true, if_false] at hE
  refine ⟨_, _, hE, First_of_find hfind hread, ?_⟩
  simp [Page.row, editedPage_Order]

/-! ## C15 -/

/-- C15 fails on the code: on the sample store, with no store call failing,
`EditPage` is given the order 2^63 for the stored page 1.  The transaction
commits, the order column then holds the negative number -2^63, the row no
longer reads back, and `EditPage` returns `failed_to_get_documentation_id`
instead of succeeding with the order stored as given. -/
theorem C15_EditPage_order_overflow :
    env0.faults = Faults.none ∧
    w2.db.First false 1 = .ok page1.row ∧
    EditPage env0 w2 bob 1 "T" "s" "" (some 9223372036854775808) none =
      (some "failed_to_get_documentation_id",
        ⟨⟨[⟨1, "T", "s", "old text", 7, none, some 9223372036854775808, 1, some 2, []⟩,
            page3, page4], [(1, alice), (1, bob)]⟩, []⟩) ∧
    int64OfUint 9223372036854775808 = -9223372036854775808 ∧
    (EditPage env0 w2 bob 1 "T" "s" "" (some 9223372036854775808) none).2.db.First false 1
      = .error .ErrOther ∧
    (∃ w1 p1, EditPage env0 w2 bob 1 "T" "s" "" (some 9223372036854775807) none = (none, w1) ∧
      w1.db.First false 1 = .ok p1 ∧ p1.Order = some 9223372036854775807) :=
  ⟨rfl, rfl, by decide, by decide, rfl,
    EditPage_order_stored env0 w2 bob 1 "T" "s" "" none page1.row 9223372036854775807
      rfl rfl (by decide) rfl (by decide)⟩

/-! ## C19 -/

/-- A successful `ReorderPage` has saved the page with the given group and order. -/
theorem ReorderPage_ok {env : Env} {w w1 : World} {id : Nat} {g o : Option Nat}
    (h : ReorderPage env w id g o = (none, w1)) :
    ∃ p, w.db.First false id = .ok p ∧
      w1.db.First false id = .ok { p with PageGroupID := g, Order := o } := by
  unfold ReorderPage at h
  cases hF : w.db.First env.faults.first id with
  | error e => cases e <;> simp [hF] at h
  | ok page =>
    simp only [hF] at h
    cases hS : w.db.Save env.faults.save { page with PageGroupID := g, Order := o } with
    | error e => simp [hS] at h
    | ok db1 =>
      simp only [hS] at h
      cases hD : GetDocumentationIDOfPage env ⟨db1, w.triggers⟩ id with
      | error e => simp [hD] at h
      | ok docId =>
        simp only [hD, triggerBuild_eq, Prod.mk.injEq] at h
        have hr0 := fun p hp => @First_readable _ _ _ _ p hF hp
        obtain ⟨hf, p0, hp0, rfl⟩ := First_ok hF
        have hid : p0.ID = id := (find_ID hp0).1
        have hS2 := find_after_Save hS
        simp only [Page.row] at hS2
        subst hid
        refine ⟨p0.row, First_of_find hp0 (hr0 p0 hp0), ?_⟩
        rw [← h.2]
        exact First_of_lookup hD hS2

/-- C19: a successful `EditPage` with a nil order leaves the stored order as it
was, with a nil page group leaves the stored page group as it was (so a page
in a group is never moved to top level), and never changes the documentation
id; a successful `ReorderPage` stores the given page group and order as they
are, nil included. -/
theorem C19_nil_means_no_change (env : Env) (w : World) (user : User) (id : Nat)
    (t sl c : String) (o g : Option Nat) :
    (∀ w1, EditPage env w user id t sl c o g = (none, w1) →
      ∃ p p1, w.db.First false id = .ok p ∧ w1.db.First false id = .ok p1 ∧
        (o = none → p1.Order = p.Order) ∧
        (g = none → p1.PageGroupID = p.PageGroupID) ∧
        (p.PageGroupID ≠ none → p1.PageGroupID ≠ none) ∧
        p1.DocumentationID = p.DocumentationID) ∧
    (∀ w1, ReorderPage env w id g o = (none, w1) →
      ∃ p1, w1.db.First false id = .ok p1 ∧ p1.PageGroupID = g ∧ p1.Order = o) := by
  constructor
  · intro w1 h
    obtain ⟨db1, docId, hT, hD, rfl⟩ := EditPage_ok h
    obtain ⟨p0, hp0, -⟩ := EditPageTx_ok hT
    refine ⟨p0.row, _, First_of_find hp0 (EditPageTx_readable hp0 hT),
      First_after_EditPageTx hp0 hT hD, ?_, ?_, ?_, ?_⟩
    · intro ho
      subst ho
      simp [Page.row, editedPage_Order, loaded]
    · intro hg
      subst hg
      simp [Page.row, editedPage_PageGroupID, loaded]
    · intro hne
      cases g with
      | none => simpa [Page.row, editedPage_PageGroupID, loaded] using hne
      | some x => simp [Page.row, editedPage_PageGroupID]
    · simp [Page.row, editedPage_DocumentationID, loaded]
  · intro w1 h
    obtain ⟨p, -, hp1⟩ := ReorderPage_ok h
    exact ⟨_, hp1, rfl, rfl⟩

/-- C19 at the sample store: `EditPage` with nil order and nil page group keeps
`page4` in its group 4 with its order 1, `ReorderPage` with nil moves it to top
level without an order. -/
theorem C19_nil_means_no_change_witness :
    (∃ p p1, w2.db.First false 4 = .ok p ∧
        (EditPage env0 w2 bob 4 "T" "s" "" none none).2.db.First false 4 = .ok p1 ∧
        ((none : Option Nat) = none → p1.Order = p.Order) ∧
        ((none : Option Nat) = none → p1.PageGroupID = p.PageGroupID) ∧
        (p.PageGroupID ≠ none → p1.PageGroupID ≠ none) ∧
        p1.DocumentationID = p.DocumentationID) ∧
    (∃ p1, (ReorderPage env0 w2 4 none none).2.db.First false 4 = .ok p1 ∧
        p1.PageGroupID = none ∧ p1.Order = none) :=
  ⟨(C19_nil_means_no_change env0 w2 bob 4 "T" "s" "" none none).1 _ (by decide),
   (C19_nil_means_no_change env0 w2 bob 4 "T" "s" "" none none).2 _ (by decide)⟩

/-! ## C16 -/

/-- `SetupDataPath` leaves `MaxFileSize` as it is. -/
theorem SetupDataPath_MaxFileSize (cfg : Config) (disk : Disk) :
    (SetupDataPath cfg disk).2.1.MaxFileSize = cfg.MaxFileSize := by
  unfold SetupDataPath
  simp only
  split <;> (try split) <;> split <;> rfl

/-- C16: for every configuration `ParseConfig` parses, the returned
`MaxFileSize` is 10 when the file gives `maxFileSize` as 0 or not at all, and
is the value of the file otherwise. -/
theorem C16_ParseConfig_MaxFileSize (content : ConfigFile) (disk disk1 : Disk)
    (cfg : Config) (h : ParseConfig (.ok content) disk = .ok (cfg, disk1)) :
    (content.maxFileSize = none ∨ content.maxFileSize = some 0 → cfg.MaxFileSize = 10) ∧
    (∀ v, content.maxFileSize = some v → v ≠ 0 → cfg.MaxFileSize = v) := by
  unfold ParseConfig at h
  simp only at h
  cases hd : decodeConfig content with
  | error e => simp [hd] at h
  | ok cfg0 =>
    simp only [hd] at h
    have hm := SetupDataPath_MaxFileSize cfg0 disk
    generalize SetupDataPath cfg0 disk = r at h hm
    obtain ⟨e, cfg1, d1⟩ := r
    cases e with
    | some e => simp at h
    | none =>
      simp only [Except.ok.injEq, Prod.mk.injEq] at h
      simp only at hm
      obtain ⟨hcfg, -⟩ := h
      have h0 : cfg0.MaxFileSize = (content.maxFileSize).getD 0 := by
        unfold decodeConfig at hd
        cases hv : content.maxFileSize with
        | none =>
          simp only [hv, Except.ok.injEq] at hd
          rw [← hd]
          rfl
        | some v =>
          simp only [hv] at hd
          split at hd
          · simp only [Except.ok.injEq] at hd
            rw [← hd]
            rfl
          · cases hd
      rw [h0] at hm
      constructor
      · intro hz
        have : cfg1.MaxFileSize = 0 := by
          rcases hz with hz | hz <;> simp [hm, hz]
        rw [← hcfg]
        simp [this]
      · intro v hv hne
        have : cfg1.MaxFileSize = v := by simp [hm, hv]
        rw [← hcfg]
        simp [this, hne]

/-- C16 at sample files: no `maxFileSize` and `maxFileSize` 0 give 10,
`maxFileSize` 25 gives 25. -/
theorem C16_ParseConfig_MaxFileSize_witness :
    (∃ cfg disk1, ParseConfig (.ok ⟨none, none⟩) disk0 = .ok (cfg, disk1) ∧
      cfg.MaxFileSize = 10) ∧
    (∃ cfg disk1, ParseConfig (.ok ⟨some 0, some "/srv/kalmia"⟩) disk0 = .ok (cfg, disk1) ∧
      cfg.MaxFileSize = 10) ∧
    (∃ cfg disk1, ParseConfig (.ok ⟨some 25, none⟩) disk0 = .ok (cfg, disk1) ∧
      cfg.MaxFileSize = 25) :=
  ⟨⟨_, _, rfl, (C16_ParseConfig_MaxFileSize ⟨none, none⟩ disk0
      ⟨["./data", "./data/rspress_data"], fun _ => false⟩ ⟨10, "./data"⟩ rfl).1
      (Or.inl rfl)⟩,
   ⟨_, _, rfl, (C16_ParseConfig_MaxFileSize ⟨some 0, some "/srv/kalmia"⟩ disk0
      ⟨["/srv/kalmia", "/srv/kalmia/rspress_data"], fun _ => false⟩
      ⟨10, "/srv/kalmia"⟩ rfl).1 (Or.inr rfl)⟩,
   ⟨_, _, rfl, (C16_ParseConfig_MaxFileSize ⟨some 25, none⟩ disk0
      ⟨["./data", "./data/rspress_data"], fun _ => false⟩ ⟨25, "./data"⟩ rfl).2 25 rfl
      (by decide)⟩⟩

/-! ## Lemmas on `strings.ReplaceAll` -/

/-- The characters of a match just replaced are passed over. -/
theorem replaceFrom_skip (old new xs ys : List Char) :
    replaceFrom old new xs.length (xs ++ ys) = replaceFrom old new 0 ys := by
  induction xs with
  | nil => rfl
  | cons x xs ih =>
    simp only [List.length_cons, List.cons_append, replaceFrom]
    exact ih

/-- A text in which `old` does not occur is left as it is. -/
theorem replaceFrom_absent (old new s : List Char)
    (h : ∀ k, ¬ old <+: s.drop k) : replaceFrom old new 0 s = s := by
  induction s with
  | nil => rfl
  | cons x s ih =>
    have h0 : ¬ old.isPrefixOf (x :: s) = true := by
      rw [List.isPrefixOf_iff_prefix]
      exact h 0
    have hrest : ∀ k, ¬ old <+: s.drop k := fun k => h (k + 1)
    simp only [replaceFrom, h0, if_false, Bool.false_eq_true]
    rw [ih hrest]

/-- The first occurrence of `old` is replaced and the scan goes on after it. -/
theorem replaceFrom_first (old new a b : List Char) (hold : old ≠ [])
    (h : ∀ k, k < a.length → ¬ old <+: (a ++ old ++ b).drop k) :
    replaceFrom old new 0 (a ++ old ++ b) = a ++ new ++ replaceFrom old new 0 b := by
  induction a with
  | nil =>
    cases old with
    | nil => exact absurd rfl hold
    | cons c old1 =>
      have hp : (c :: old1).isPrefixOf (c :: (old1 ++ b)) = true := by
        rw [List.isPrefixOf_iff_prefix]
        exact ⟨b, by simp⟩
      have e : [] ++ (c :: old1) ++ b = c :: (old1 ++ b) := by simp
      rw [e]
      simp only [replaceFrom, hp, if_true, List.length_cons, Nat.add_sub_cancel,
        List.nil_append]
      rw [replaceFrom_skip]
  | cons x a ih =>
    have h0 : ¬ old.isPrefixOf (x :: (a ++ old ++ b)) = true := by
      rw [List.isPrefixOf_iff_prefix]
      have := h 0 (by simp)
      simpa using this
    have hrest : ∀ k, k < a.length → ¬ old <+: (a ++ old ++ b).drop k := by
      intro k hk
      have := h (k + 1) (by simpa using hk)
      simpa using this
    have e : x :: a ++ old ++ b = x :: (a ++ old ++ b) := by simp
    rw [e]
    simp only [replaceFrom, h0, if_false, Bool.false_eq_true]
    rw [ih hrest]
    simp

/-! ## C17 -/

/-- With an empty `old`, `new` is put before the text and after each of its
characters. -/
theorem ReplaceAll_empty_cons (new rest : List Char) (c : Char) :
    ReplaceAll (c :: rest) [] new = new ++ c :: ReplaceAll rest [] new := by
  simp [ReplaceAll, insertAfterEach]

/-- C17: after a successful `ReplaceInFile` the file holds its former content
with every occurrence of `old` replaced by `new` and no other file is
changed, for every `old` and `new`.  For a non-empty `old` the replacement is
this: a content without an occurrence is left as it is, and in a content
whose first occurrence stands after `a`, that is `a ++ old ++ b`, the part
`a` is kept, `new` stands for the occurrence and the rest `b` is treated the
same way, so that not only the first occurrence is replaced.  For an empty
`old`, which occurs before every character and at the end, an empty content
becomes `new`, and in a content `c :: rest` the occurrence before `c` becomes
`new`, `c` is kept and `rest` is treated the same way. -/
theorem C17_ReplaceInFile_all (files files1 : Files) (path old new : String)
    (h : ReplaceInFile files path old new = (none, files1)) :
    ∃ content, files path = some content ∧
      files1 path = some (String.mk (ReplaceAll content.data old.data new.data)) ∧
      (∀ q, q ≠ path → files1 q = files q) ∧
      (old.data ≠ [] → (∀ k, ¬ old.data <+: content.data.drop k) →
        files1 path = some content) ∧
      (∀ a b, old.data ≠ [] → content.data = a ++ old.data ++ b →
        (∀ k, k < a.length → ¬ old.data <+: content.data.drop k) →
        ReplaceAll content.data old.data new.data =
          a ++ new.data ++ ReplaceAll b old.data new.data) ∧
      (old.data = [] → content.data = [] → files1 path = some new) ∧
      (∀ c rest, old.data = [] → content.data = c :: rest →
        ReplaceAll content.data old.data new.data =
          new.data ++ c :: ReplaceAll rest old.data new.data) := by
  unfold ReplaceInFile at h
  cases hc : files path with
  | none => simp [hc] at h
  | some content =>
    simp only [hc, Prod.mk.injEq, true_and] at h
    subst h
    refine ⟨content, rfl, by simp, ?_, ?_, ?_, ?_, ?_⟩
    · intro q hq
      simp [hq]
    · intro hold habs
      simp only [if_true]
      unfold ReplaceAll
      rw [if_neg hold, replaceFrom_absent _ _ _ habs]
    · intro a b hold hsplit hfirst
      unfold ReplaceAll
      rw [if_neg hold, if_neg hold, hsplit]
      rw [hsplit] at hfirst
      exact replaceFrom_first _ _ _ _ hold hfirst
    · intro hold hnil
      simp only [if_true]
      rw [hold, hnil]
      simp [ReplaceAll, insertAfterEach]
    · intro c rest hold hcons
      rw [hold, hcons]
      exact ReplaceAll_empty_cons _ _ _

/-- C17 at the file of `TestReplaceInFile`: both occurrences of `Hello` become
`Hi`, and the other file keeps its `Hello`; with an empty `old`, `-` is put
before every character of the other file and at its end. -/
theorem C17_ReplaceInFile_all_witness :
    (∃ content, files0 "./testfile.txt" = some content ∧
      (ReplaceInFile files0 "./testfile.txt" "Hello" "Hi").2 "./testfile.txt" =
        some (String.mk (ReplaceAll content.data "Hello".data "Hi".data)) ∧
      (∀ q, q ≠ "./testfile.txt" →
        (ReplaceInFile files0 "./testfile.txt" "Hello" "Hi").2 q = files0 q) ∧
      ("Hello".data ≠ [] → (∀ k, ¬ "Hello".data <+: content.data.drop k) →
        (ReplaceInFile files0 "./testfile.txt" "Hello" "Hi").2 "./testfile.txt"
          = some content) ∧
      (∀ a b, "Hello".data ≠ [] → content.data = a ++ "Hello".data ++ b →
        (∀ k, k < a.length → ¬ "Hello".data <+: content.data.drop k) →
        ReplaceAll content.data "Hello".data "Hi".data =
          a ++ "Hi".data ++ ReplaceAll b "Hello".data "Hi".data) ∧
      ("Hello".data = [] → content.data = [] →
        (ReplaceInFile files0 "./testfile.txt" "Hello" "Hi").2 "./testfile.txt"
          = some "Hi") ∧
      (∀ c rest, "Hello".data = [] → content.data = c :: rest →
        ReplaceAll content.data "Hello".data "Hi".data =
          "Hi".data ++ c :: ReplaceAll rest "Hello".data "Hi".data)) ∧
    (ReplaceInFile files0 "./testfile.txt" "Hello" "Hi").2 "./testfile.txt"
      = some "Hi, world! Hi again!" ∧
    (ReplaceInFile files0 "./testfile.txt" "Hello" "Hi").2 "./other.txt" = some "Hello" ∧
    (ReplaceInFile files0 "./other.txt" "" "-").2 "./other.txt" = some "-H-e-l-l-o-" :=
  ⟨C17_ReplaceInFile_all files0 _ "./testfile.txt" "Hello" "Hi" rfl,
    by decide, by decide, by decide⟩

/-! ## C18 -/

theorem startBuild_consistent (s : Scheduler) (docId : Nat) (h : s.consistent)
    (hp : ∀ r, s.phase docId ≠ .Building r) : (s.startBuild docId).consistent := by
  intro d
  have hd := h d
  by_cases hdd : d = docId
  · subst hdd
    have h0 : s.running.count d = 0 := by
      rw [hd]
      cases hph : s.phase d with
      | Idle => rfl
      | Pending => rfl
      | Building r => exact absurd hph (hp r)
    simp [Scheduler.startBuild, Scheduler.setPhase, h0]
  · simp only [Scheduler.startBuild, Scheduler.setPhase, hdd, if_false]
    rw [List.count_cons_of_ne hdd]
    exact hd

theorem setPhase_consistent (s : Scheduler) (docId : Nat) (p : Phase) (h : s.consistent)
    (hp : (match s.phase docId with | .Building _ => 1 | _ => 0) =
      (match p with | .Building _ => 1 | _ => 0)) :
    (s.setPhase docId p).consistent := by
  intro d
  have hd := h d
  by_cases hdd : d = docId
  · subst hdd
    simp only [Scheduler.setPhase, if_true]
    rw [hd, hp]
  · simp only [Scheduler.setPhase, hdd, if_false]
    exact hd

/-- Every step of the scheduler keeps the executing builds and the phases
consistent. -/
theorem step_consistent (s : Scheduler) (e : SchedEvent) (h : s.consistent) :
    (s.step e).consistent := by
  cases e with
  | trigger docId force =>
    cases hph : s.phase docId with
    | Idle =>
      cases force with
      | true =>
        simp only [Scheduler.step, hph, if_true]
        exact startBuild_consistent s docId h (by simp [hph])
      | false =>
        simp only [Scheduler.step, hph, Bool.false_eq_true, if_false]
        exact setPhase_consistent s docId .Pending h (by simp [hph])
    | Pending =>
      cases force with
      | true =>
        simp only [Scheduler.step, hph, if_true]
        exact startBuild_consistent s docId h (by simp [hph])
      | false =>
        simp only [Scheduler.step, hph, Bool.false_eq_true, if_false]
        exact setPhase_consistent s docId .Pending h (by simp [hph])
    | Building r =>
      simp only [Scheduler.step, hph]
      exact setPhase_consistent s docId (.Building true) h (by simp [hph])
  | countdown docId =>
    cases hph : s.phase docId with
    | Idle =>
      simp only [Scheduler.step, hph]
      exact h
    | Pending =>
      simp only [Scheduler.step, hph]
      exact startBuild_consistent s docId h (by simp [hph])
    | Building r =>
      simp only [Scheduler.step, hph]
      exact h
  | finished docId success =>
    cases hph : s.phase docId with
    | Idle =>
      simp only [Scheduler.step, hph]
      exact h
    | Pending =>
      simp only [Scheduler.step, hph]
      exact h
    | Building r =>
      simp only [Scheduler.step, hph]
      intro d
      have hd := h d
      by_cases hdd : d = docId
      · subst hdd
        rw [hph] at hd
        cases r <;> simp [Scheduler.setPhase, List.count_erase_self, hd]
      · simp only [Scheduler.setPhase, hdd, if_false]
        rw [List.count_erase_of_ne hdd]
        exact hd

/-- After every sequence of events the executing builds and the phases are
consistent. -/
theorem run_consistent (events : List SchedEvent) : (Scheduler.run events).consistent := by
  unfold Scheduler.run
  have hinit : Scheduler.init.consistent := by
    intro d
    rfl
  generalize Scheduler.init = s at hinit ⊢
  induction events generalizing s with
  | nil => exact hinit
  | cons e es ih => exact ih _ (step_consistent s e hinit)

/-- C18: whatever triggers arrive, forced ones during a build included, and
however countdowns fire and builds come back, at most one build of a
documentation id executes at any time. -/
theorem C18_single_flight (events : List SchedEvent) (docId : Nat) :
    (Scheduler.run events).running.count docId ≤ 1 := by
  have h := run_consistent events docId
  rw [h]
  cases (Scheduler.run events).phase docId <;> simp

/-- C18 on a sample run: a forced trigger starts the build of documentation 7,
a second forced trigger and a plain one arrive while it is in flight, and one
build of 7 executes; when it has come back and the countdown has fired, one
build executes again. -/
theorem C18_single_flight_witness :
    (Scheduler.run [.trigger 7 true, .trigger 7 true, .trigger 7 false]).running.count 7 ≤ 1 ∧
    (Scheduler.run [.trigger 7 true, .trigger 7 true, .trigger 7 false]).running = [7] ∧
    (Scheduler.run [.trigger 7 true, .trigger 7 true, .finished 7 true,
      .countdown 7, .trigger 3 true]).running = [3, 7] :=
  ⟨C18_single_flight [.trigger 7 true, .trigger 7 true, .trigger 7 false] 7,
    by decide, by decide⟩

end Kalmia
